import Mathlib

/-!
Verification development for the RCC slab designer engine.

The Python modules `constants.py`, `helpers.py`, `units.py`, `reinforcement.py`,
`one_way.py` and `two_way.py` are shallowly embedded below.  Python floats are
modelled as exact rationals (`ℚ`); the two genuinely irrational operations
(`math.sqrt` in the shear-capacity formula and `math.pi` in bar areas) are
modelled over `ℝ`.  Python exceptions (`ZeroDivisionError` from float division
by zero, `ValueError` from `math.sqrt` of a negative number) are modelled with
`Except`: each division or square root whose argument can be zero/negative for
some input is guarded exactly where the source would raise.  `round(x, n)` is
modelled as exact decimal round-half-to-even.
-/

/-- Python exception kinds that the embedded code can raise. -/
inductive PyErr where
  | zeroDivisionError
  | valueError
deriving DecidableEq

/-- Python float division: raises ZeroDivisionError on a zero denominator. -/
def pydiv (a b : ℚ) : Except PyErr ℚ :=
  if b = 0 then .error .zeroDivisionError else .ok (a / b)

/-- Round-half-to-even to an integer (Python `round`), on rationals. -/
def rheQ (q : ℚ) : ℤ :=
  if q - ⌊q⌋ < 1/2 then ⌊q⌋
  else if q - ⌊q⌋ > 1/2 then ⌊q⌋ + 1
  else if Even ⌊q⌋ then ⌊q⌋ else ⌊q⌋ + 1

/-- Python `round(x, n)` (round-half-to-even at `n` decimals), on rationals. -/
def roundToQ (q : ℚ) (n : ℕ) : ℚ := (rheQ (q * 10 ^ n) : ℚ) / 10 ^ n

open Classical in
/-- Round-half-to-even to an integer (Python `round`), on reals. -/
noncomputable def rheR (x : ℝ) : ℤ :=
  if x - ⌊x⌋ < 1/2 then ⌊x⌋
  else if x - ⌊x⌋ > 1/2 then ⌊x⌋ + 1
  else if Even ⌊x⌋ then ⌊x⌋ else ⌊x⌋ + 1

/-- Python `round(x, n)` at `n` decimals, on reals. -/
noncomputable def roundToR (x : ℝ) (n : ℕ) : ℝ := (rheR (x * 10 ^ n) : ℝ) / 10 ^ n

/-! ## constants.py -/

def DEFAULT_FCK : ℚ := 25
def DEFAULT_FY : ℚ := 500
def UNIT_WEIGHT_CONCRETE : ℚ := 25
def GAMMA_F : ℚ := 3/2
def min_reinforcement_ratio : ℚ := 12/10000
def MAX_BAR_SPACING : ℚ := 300
def DEFAULT_WIDTH : ℚ := 1000

def TABLE27_LY_LX : List ℚ := [1, 11/10, 12/10, 13/10, 14/10, 15/10, 175/100, 2, 25/10, 3]
def TABLE27_ALPHA_X : List ℚ :=
  [62/1000, 74/1000, 84/1000, 93/1000, 99/1000, 104/1000, 113/1000, 118/1000, 122/1000, 124/1000]
def TABLE27_ALPHA_Y : List ℚ :=
  [62/1000, 61/1000, 59/1000, 55/1000, 51/1000, 46/1000, 37/1000, 29/1000, 20/1000, 14/1000]

/-- The bracketing-interval scan of `interp1d`: walks consecutive breakpoint
pairs; when `x` lies in `[x0, x1]` returns the linear interpolation, and when
the scan ends without a bracket returns the last `y` value (the source's final
`return y_points[-1]`). -/
def interpScan : List ℚ → List ℚ → ℚ → ℚ
  | x0 :: x1 :: xs, y0 :: y1 :: ys, x =>
    if x0 ≤ x ∧ x ≤ x1 then y0 + (x - x0) / (x1 - x0) * (y1 - y0)
    else interpScan (x1 :: xs) (y1 :: ys) x
  | _, ys, _ => ys.getLast?.getD 0

/-- `constants.interp1d`: clamped linear interpolation over parallel lists. -/
def interp1d (x_points y_points : List ℚ) (x : ℚ) : ℚ :=
  if x ≤ x_points.headI then y_points.headI
  else if x ≥ (x_points.getLast?.getD 0) then y_points.getLast?.getD 0
  else interpScan x_points y_points x

/-- `constants.get_table27_alphas`. -/
def get_table27_alphas (ly_lx : ℚ) : ℚ × ℚ :=
  let r := max (min ly_lx (TABLE27_LY_LX.getLast?.getD 0)) TABLE27_LY_LX.headI
  (interp1d TABLE27_LY_LX TABLE27_ALPHA_X r, interp1d TABLE27_LY_LX TABLE27_ALPHA_Y r)

/-! ## helpers.py and units.py -/

def slab_self_weight (thickness_mm : ℚ) : ℚ := UNIT_WEIGHT_CONCRETE * (thickness_mm / 1000)

def total_dead_load (self_weight floor_finish partitions : ℚ) : ℚ :=
  self_weight + floor_finish + partitions

def factored_load (dl ll : ℚ) : ℚ := GAMMA_F * (dl + ll)

def moment_kNm_to_Nmm (m : ℚ) : ℚ := m * 1000000

/-! ## one_way.py: the steel-area solver -/

/-- The capacity `mu_calc` computed by one iteration of `solve_ast_from_mu`'s
loop: neutral axis `x = 0.87*fy*ast / (0.36*fck*b)`, capacity
`0.87*fy*ast*(d - 0.42*x)`, replaced by the sentinel `1e18` once `x ≥ d`. -/
def muCalcAt (d_mm b_mm fck fy ast : ℚ) : ℚ :=
  let x_mm := (87/100 * fy * ast) / (36/100 * fck * b_mm)
  if x_mm ≥ d_mm then (10 ^ 18 : ℚ) else 87/100 * fy * ast * (d_mm - 42/100 * x_mm)

/-- The loop's stopping condition at a given `ast`. -/
def stepCond (Mu_Nmm d_mm b_mm fck fy ast : ℚ) : Prop :=
  muCalcAt d_mm b_mm fck fy ast ≥ Mu_Nmm

/-- The body of `solve_ast_from_mu`'s `while` loop, with explicit fuel.
`ast` starts at 1.0 and steps by 1.0 while `ast < 1_000_000`; the loop
returns the first `ast` whose `mu_calc` meets `Mu_Nmm`, else `1_000_000`. -/
def solveAstLoop (Mu_Nmm d_mm b_mm fck fy : ℚ) : ℕ → ℚ → ℚ
  | 0, _ => 1000000
  | fuel + 1, ast =>
    if ast < 1000000 then
      if muCalcAt d_mm b_mm fck fy ast ≥ Mu_Nmm then ast
      else solveAstLoop Mu_Nmm d_mm b_mm fck fy fuel (ast + 1)
    else 1000000

/-- `one_way.solve_ast_from_mu`.  The division defining the neutral-axis depth
raises ZeroDivisionError when `0.36*fck*b == 0`; otherwise the linear scan
always returns a number (it never raises for an unattainable moment). -/
def solve_ast_from_mu (Mu_Nmm d_mm b_mm fck fy : ℚ) : Except PyErr ℚ :=
  if 36/100 * fck * b_mm = 0 then .error .zeroDivisionError
  else .ok (solveAstLoop Mu_Nmm d_mm b_mm fck fy 1000000 1)

/-! ## one_way.py: the IS shear-capacity formula -/

/-- The real value computed by `compute_tau_c_IS` on its non-error paths. -/
noncomputable def computeTauCval (fck ast_mm2_per_m b_mm d_mm : ℚ) : ℝ :=
  if ast_mm2_per_m ≤ 0 ∨ b_mm ≤ 0 ∨ d_mm ≤ 0 then 0
  else
    let p_t0 : ℚ := (100 * ast_mm2_per_m) / (b_mm * d_mm)
    let p_t : ℚ := if p_t0 ≤ 1/1000000 then 1/1000000 else p_t0
    let beta : ℚ := (8/10 * fck) / (689/100 * p_t)
    let factor : ℝ :=
      if beta ≤ 1/10 ^ 12 then
        if beta ≠ 0 then (Real.sqrt (1 + 5 * (beta : ℝ)) - 1) / (6 * (beta : ℝ)) else 5/12
      else (Real.sqrt (1 + 5 * (beta : ℝ)) - 1) / (6 * (beta : ℝ))
    let tau_c : ℝ := 85/100 * Real.sqrt (8/10 * (fck : ℝ)) * factor
    let tau_c_max : ℝ := 63/100 * Real.sqrt (fck : ℝ)
    if tau_c > tau_c_max then tau_c_max else tau_c

/-- `one_way.compute_tau_c_IS`.  `math.sqrt(0.8*fck)` raises ValueError for a
negative argument; the early guard returns 0 before any square root. -/
noncomputable def compute_tau_c_IS (fck ast_mm2_per_m b_mm d_mm : ℚ) : Except PyErr ℝ :=
  if ast_mm2_per_m ≤ 0 ∨ b_mm ≤ 0 ∨ d_mm ≤ 0 then .ok 0
  else if (8/10 * fck : ℚ) < 0 then .error .valueError
  else .ok (computeTauCval fck ast_mm2_per_m b_mm d_mm)

/-! ## reinforcement.py -/

def MIN_SPACING_MM : ℤ := 50
def MAX_SPACING_MM : ℤ := 300

/-- `reinforcement.area_of_bar_mm2`: circle area, uses `math.pi`. -/
noncomputable def area_of_bar_mm2 (dia_mm : ℚ) : ℝ := Real.pi * (dia_mm : ℝ) ^ 2 / 4

/-- `reinforcement._round_spacing_practical`: round to the NEAREST 5 mm
(Python `round`, half-to-even), floored at 1.  The `None`/`inf` guard of the
source is unreachable here because the computed raw spacing is always a finite
real. -/
noncomputable def round_spacing_practical (spacing_mm : ℝ) : ℤ :=
  max 1 (rheR (spacing_mm / 5) * 5)

/-- The per-candidate warning messages of `recommend_bars`. -/
inductive BarWarning where
  | spacingBelowMin
  | spacingAboveMax
  | providedBelowRequired
deriving DecidableEq

structure Candidate where
  bar_dia_mm : ℚ
  raw_spacing_mm : ℝ
  spacing_mm : ℤ
  Ast_provided_mm2_per_m : ℝ
  ok : Bool
  warnings : List BarWarning

open Classical in
/-- One iteration of the candidate loop in `recommend_bars`, for one bar
diameter (with `ast_req` already floored at 0 by the caller). -/
noncomputable def candFor (ast_req : ℚ) (dia : ℚ) : Candidate :=
  let area := area_of_bar_mm2 dia
  let raw_spacing : ℝ :=
    if ast_req ≤ 0 then 300
    else
      let bars_per_m := (ast_req : ℝ) / area
      if bars_per_m ≤ 0 then 300 else 1000 / bars_per_m
  let spacing_rounded := round_spacing_practical raw_spacing
  let ast_provided : ℝ :=
    if spacing_rounded = 0 then 0 else area * (1000 / (spacing_rounded : ℝ))
  let warnings : List BarWarning :=
    (if spacing_rounded < MIN_SPACING_MM then [.spacingBelowMin] else [])
    ++ (if spacing_rounded > MAX_SPACING_MM then [.spacingAboveMax] else [])
    ++ (if ast_provided + 1/1000000 < (ast_req : ℝ) then [.providedBelowRequired] else [])
  let ok : Bool :=
    if spacing_rounded < MIN_SPACING_MM ∨ ast_provided + 1/1000000 < (ast_req : ℝ)
    then false else true
  { bar_dia_mm := dia
    raw_spacing_mm := raw_spacing
    spacing_mm := spacing_rounded
    Ast_provided_mm2_per_m := ast_provided
    ok := ok
    warnings := warnings }

/-- Python `sorted(cands, key=lambda c: (dia, spacing))[0]`: the first element
attaining the lexicographically least key. -/
def minByDiaSpacing : List Candidate → Candidate → Candidate
  | [], best => best
  | c :: rest, best =>
    minByDiaSpacing rest
      (if c.bar_dia_mm < best.bar_dia_mm ∨
          (c.bar_dia_mm = best.bar_dia_mm ∧ c.spacing_mm < best.spacing_mm)
       then c else best)

/-- Python `min(cands, key=lambda c: spacing)`: first element of least spacing. -/
def minBySpacing : List Candidate → Candidate → Candidate
  | [], best => best
  | c :: rest, best => minBySpacing rest (if c.spacing_mm < best.spacing_mm then c else best)

open Classical in
/-- Python `max(cands, key=lambda c: Ast_provided)`: first element of greatest
provided area. -/
noncomputable def maxByProv : List Candidate → Candidate → Candidate
  | [], best => best
  | c :: rest, best =>
    maxByProv rest
      (if best.Ast_provided_mm2_per_m < c.Ast_provided_mm2_per_m then c else best)

structure RecommendResult where
  recommended : Candidate
  candidates : List Candidate

def defaultPreferredBars : List ℚ := [8, 10, 12, 16, 20, 25]

open Classical in
/-- `reinforcement.recommend_bars`.  The final "ensure consistent fields"
block of the source is a no-op here since every candidate always carries `ok`
and `warnings`.  The fallback `max` over candidates is only reached with a
nonempty catalogue, matching every call site in the repository; for an empty
catalogue it returns a dummy candidate where Python would raise. -/
noncomputable def recommend_bars (ast_req_mm2_per_m : ℚ)
    (preferred_bars : List ℚ := defaultPreferredBars)
    (prefer_closer_spacing : Bool := false) : RecommendResult :=
  let ast_req := max ast_req_mm2_per_m 0
  let candidates := preferred_bars.map (candFor ast_req)
  let ok_candidates := candidates.filter
    (fun c => c.ok && decide ((ast_req : ℝ) - 1/1000000 ≤ c.Ast_provided_mm2_per_m))
  let recommended :=
    match ok_candidates with
    | [] =>
      match candidates with
      | [] => candFor ast_req 0
      | c :: rest => maxByProv rest c
    | c :: rest =>
      if prefer_closer_spacing then minBySpacing rest c else minByDiaSpacing rest c
  { recommended := recommended, candidates := candidates }

/-! ## one_way.py: the design workflow -/

/-- The exposure classes distinguished by the nominal-cover mapping. -/
inductive Exposure where
  | moderate
  | severe
  | verySevere
  | mild
deriving DecidableEq

/-- The warning kinds of the spec's taxonomy, one constructor per
`warnings.append` site in `one_way.py` and `two_way.py`, plus
`minimumSteelGoverning` from the spec's warning list (which has no append
site in either module). -/
inductive Warning where
  | minimumSteelGoverning
  | depthLarge
  | shearExceedsCapacity
  | crackingLowSteel
  | deflectionExceedsBasic
  | barRecommendation (w : BarWarning)
  | depthLargeShort
  | depthLargeLong
  | crackingLowSteelX
  | crackingLowSteelY
  | shearExceedsShort
  | shearExceedsLong
  | deflectionNotCompleted
deriving DecidableEq

/-- One tag per `detailed_steps.append` site of `design_oneway_slab`, carrying
the numeric values interpolated into the step body that the spec's claims
refer to. -/
inductive OneWayStep where
  | inputsSummary
  | initialDepth (d_initial_mm : ℚ)
  | nominalCover (cover_rec_mm : ℚ)
  | effectiveSpan (L_eff_m : ℚ)
  | finalDepths (d_mm D_mm : ℚ)
  | loads (partitions_kN_per_m dead_load_kN_per_m wu_kN_per_m : ℚ)
  | momentShear (Mu_kN_m Vu_kN : ℚ)
  | maxDepthCheck
  | astRequired (ast_req : ℚ)
  | shearCheck
  | shearAdequacy
  | minReinforcementApplied (ast_min : ℚ)
  | minReinforcementNotGoverning (ast_min : ℚ)
  | crackingCheck
  | distributionSteel (dist_ast : ℚ)
  | shearSummary
  | deflectionCheck
  | barSelection
deriving DecidableEq

structure OneWayInputs where
  clear_span_m : ℚ
  live_load_kN_m2 : ℚ
  floor_finish_kN_m2 : ℚ
  partitions_kN_per_m : ℚ
  strip_width_m : ℚ
  support_width_m : ℚ
  L_div_d : ℚ
  cover_mm : ℚ
  bar_dia_mm : ℚ
  fck : ℚ
  fy : ℚ
  exposure : Exposure

/-- Step 1-3: initial effective depth from the span/depth guideline. -/
def owDInitial (i : OneWayInputs) : ℚ := max (i.clear_span_m * 1000 / i.L_div_d) 100

/-- Nominal cover after the exposure mapping. -/
def owCoverRec (i : OneWayInputs) : ℚ :=
  match i.exposure with
  | .moderate => max i.cover_mm 20
  | .severe => max i.cover_mm 25
  | .verySevere => max i.cover_mm 30
  | .mild => i.cover_mm

/-- Step 4: effective span, the minimum of centre-to-centre and clear+d. -/
def owLeff (i : OneWayInputs) : ℚ :=
  min (i.clear_span_m + owDInitial i / 1000) (i.clear_span_m + i.support_width_m)

/-- Final effective depth recomputed from the effective span. -/
def owD (i : OneWayInputs) : ℚ := max (owLeff i * 1000 / i.L_div_d) 100

/-- Overall depth. -/
def owDov (i : OneWayInputs) : ℚ := owD i + owCoverRec i + i.bar_dia_mm / 2

/-- Step 5: loads per metre strip. -/
def owSelfWt (i : OneWayInputs) : ℚ := slab_self_weight (owDov i) * i.strip_width_m

def owDead (i : OneWayInputs) : ℚ :=
  total_dead_load (owSelfWt i) (i.floor_finish_kN_m2 * i.strip_width_m) i.partitions_kN_per_m

def owWu (i : OneWayInputs) : ℚ :=
  factored_load (owDead i) (i.live_load_kN_m2 * i.strip_width_m)

/-- Step 6: ultimate moment (kN·m) and shear. -/
def owMukNm (i : OneWayInputs) : ℚ := owWu i * (owLeff i) ^ 2 / 8

def owMuNmm (i : OneWayInputs) : ℚ := moment_kNm_to_Nmm (owMukNm i)

def owVukN (i : OneWayInputs) : ℚ := owWu i * owLeff i / 2

def owVuN (i : OneWayInputs) : ℚ := owVukN i * 1000

/-- Step 8: the raw structural solve (`solve_ast_from_mu`'s returned number). -/
def owAstRaw (i : OneWayInputs) : ℚ :=
  solveAstLoop (owMuNmm i) (owD i) 1000 i.fck i.fy 1000000 1

/-- Step 10: code minimum steel. -/
def owAstMin (i : OneWayInputs) : ℚ := min_reinforcement_ratio * 1000 * owD i

/-- Final required steel after the minimum-steel floor. -/
def owAstFinal (i : OneWayInputs) : ℚ :=
  if owAstRaw i < owAstMin i then owAstMin i else owAstRaw i

def owTauV (i : OneWayInputs) : ℚ := owVuN i / (1000 * owD i)

/-- Step 9 uses `Ast_required` BEFORE the minimum-steel floor. -/
noncomputable def owTauC (i : OneWayInputs) : ℝ :=
  computeTauCval i.fck (owAstRaw i) 1000 (owD i)

def owAstShare (i : OneWayInputs) : ℚ := owAstFinal i / (1000 * owD i)

def owLd (i : OneWayInputs) : ℚ := owLeff i * 1000 / owD i

noncomputable def owRec (i : OneWayInputs) : RecommendResult :=
  recommend_bars (owAstFinal i) defaultPreferredBars false

/-- The result dictionary of `design_oneway_slab`. -/
structure OneWayResult where
  slab_type : String
  clear_span_m : ℚ
  effective_span_m : ℚ
  cover_mm : ℚ
  d_mm : ℚ
  D_mm : ℚ
  dead_load_kN_per_m : ℚ
  wu_kN_per_m : ℚ
  Mu_kN_m_per_m : ℚ
  Vu_kN_per_m : ℚ
  Ast_required_mm2_per_m : ℚ
  Ast_provided_mm2_per_m : ℝ
  bar_dia_mm : ℚ
  spacing_mm : ℤ
  tau_v_N_per_mm2 : ℚ
  tau_c_used_N_per_mm2 : ℝ
  ld_ratio_val : ℚ
  fck : ℚ
  fy : ℚ
  warnings : List Warning
  detailed_steps : List OneWayStep

open Classical in
/-- The `result` dictionary together with the accumulated `warnings` and
`detailed_steps` of `design_oneway_slab`, in source order. -/
noncomputable def oneWayResult (i : OneWayInputs) : OneWayResult :=
  { slab_type := "One-way (IS 456 procedure)"
    clear_span_m := roundToQ i.clear_span_m 3
    effective_span_m := roundToQ (owLeff i) 3
    cover_mm := owCoverRec i
    d_mm := roundToQ (owD i) 1
    D_mm := roundToQ (owDov i) 1
    dead_load_kN_per_m := roundToQ (owDead i) 3
    wu_kN_per_m := roundToQ (owWu i) 3
    Mu_kN_m_per_m := roundToQ (owMukNm i) 3
    Vu_kN_per_m := roundToQ (owVukN i) 3
    Ast_required_mm2_per_m := roundToQ (owAstFinal i) 2
    Ast_provided_mm2_per_m := roundToR (owRec i).recommended.Ast_provided_mm2_per_m 2
    bar_dia_mm := (owRec i).recommended.bar_dia_mm
    spacing_mm := (owRec i).recommended.spacing_mm
    tau_v_N_per_mm2 := roundToQ (owTauV i) 4
    tau_c_used_N_per_mm2 := roundToR (owTauC i) 4
    ld_ratio_val := roundToQ (owLd i) 2
    fck := i.fck
    fy := i.fy
    warnings :=
      (if owDov i > 500 then [Warning.depthLarge] else [])
      ++ (if (owTauV i : ℝ) > owTauC i then [Warning.shearExceedsCapacity] else [])
      ++ (if owAstShare i < 2/1000 then [Warning.crackingLowSteel] else [])
      ++ (if owLd i > 20 then [Warning.deflectionExceedsBasic] else [])
      ++ (if (owRec i).recommended.ok = false
          then (owRec i).recommended.warnings.map Warning.barRecommendation else [])
    detailed_steps :=
      [OneWayStep.inputsSummary,
       OneWayStep.initialDepth (owDInitial i),
       OneWayStep.nominalCover (owCoverRec i),
       OneWayStep.effectiveSpan (owLeff i),
       OneWayStep.finalDepths (owD i) (owDov i),
       OneWayStep.loads i.partitions_kN_per_m (owDead i) (owWu i),
       OneWayStep.momentShear (owMukNm i) (owVukN i),
       OneWayStep.maxDepthCheck,
       OneWayStep.astRequired (owAstRaw i),
       OneWayStep.shearCheck]
      ++ (if (owTauV i : ℝ) > owTauC i then [] else [OneWayStep.shearAdequacy])
      ++ [if owAstRaw i < owAstMin i
          then OneWayStep.minReinforcementApplied (owAstMin i)
          else OneWayStep.minReinforcementNotGoverning (owAstMin i),
          OneWayStep.crackingCheck,
          OneWayStep.distributionSteel (25/100 * owAstFinal i),
          OneWayStep.shearSummary,
          OneWayStep.deflectionCheck,
          OneWayStep.barSelection] }

/-- `one_way.design_oneway_slab`: runs the raise sites in source order (the
`span*1000/L_div_d` division, the solver's division, the shear formula's
square root), then packages the result; there is no input validation of any
kind before the stages run. -/
noncomputable def design_oneway_slab (i : OneWayInputs) : Except PyErr OneWayResult := do
  let _ ← pydiv (i.clear_span_m * 1000) i.L_div_d
  let _ ← pydiv (owLeff i * 1000) i.L_div_d
  let _ ← solve_ast_from_mu (owMuNmm i) (owD i) 1000 i.fck i.fy
  let _ ← compute_tau_c_IS i.fck (owAstRaw i) 1000 (owD i)
  .ok (oneWayResult i)

/-! ## two_way.py -/

/-- One tag per `detailed_steps.append` site of `design_twoway_slab` (all of
them unconditional in the source), carrying the values the claims refer to. -/
inductive TwoWayStep where
  | inputsSummary
  | spanClassification
  | initialDepths (d_short_initial d_long_initial : ℚ)
  | effectiveSpanDepths (d_short_mm d_long_mm : ℚ)
  | factoredLoads (partitions_kN_per_m dead_load_kN_per_m wu_kN_per_m : ℚ)
  | momentsFromTable (Mx_kN_m My_kN_m : ℚ)
  | astFromMoments (ast_short_req ast_long_req : ℚ)
  | maxDepthCheck
  | minReinforcementCheck (short_min long_min : Bool)
  | barSelection
  | crackingCheck
  | shearChecks
  | deflectionCheck
deriving DecidableEq

structure TwoWayInputs where
  Lx_m : ℚ
  Ly_m : ℚ
  wall_thickness_mm : ℚ
  live_load_kN_m2 : ℚ
  floor_finish_kN_m2 : ℚ
  partitions_kN_per_m : ℚ
  strip_width_m : ℚ
  cover_mm : ℚ
  bar_dia_x_mm : ℚ
  bar_dia_y_mm : ℚ
  fck : ℚ
  fy : ℚ
  L_div_d : ℚ

def twLshort (j : TwoWayInputs) : ℚ := if j.Ly_m ≥ j.Lx_m then j.Lx_m else j.Ly_m

def twLlong (j : TwoWayInputs) : ℚ := if j.Ly_m ≥ j.Lx_m then j.Ly_m else j.Lx_m

def twDShortInit (j : TwoWayInputs) : ℚ := max (twLshort j * 1000 / j.L_div_d) 100

def twDLongInit (j : TwoWayInputs) : ℚ := max (twLlong j * 1000 / j.L_div_d) 100

/-- Effective spans: min of clear+d and centre-to-centre (the latter taken as
the given span, support widths being unknown in two-way). -/
def twLeffShort (j : TwoWayInputs) : ℚ :=
  min (twLshort j + twDShortInit j / 1000) (twLshort j)

def twLeffLong (j : TwoWayInputs) : ℚ :=
  min (twLlong j + twDLongInit j / 1000) (twLlong j)

def twDshort (j : TwoWayInputs) : ℚ := max (twLeffShort j * 1000 / j.L_div_d) 100

def twDlong (j : TwoWayInputs) : ℚ := max (twLeffLong j * 1000 / j.L_div_d) 100

def twDovShort (j : TwoWayInputs) : ℚ := twDshort j + j.cover_mm + j.bar_dia_x_mm / 2

def twDovLong (j : TwoWayInputs) : ℚ := twDlong j + j.cover_mm + j.bar_dia_y_mm / 2

def twAssumedDov (j : TwoWayInputs) : ℚ := max (twDovShort j) (twDovLong j)

def twSelfWt (j : TwoWayInputs) : ℚ := slab_self_weight (twAssumedDov j) * j.strip_width_m

/-- The partition line load actually used: the caller's value when positive,
otherwise the internal estimate `(wall_thickness/115) * 3.5` whenever a
positive wall thickness is given. -/
def twPartitionsUsed (j : TwoWayInputs) : ℚ :=
  if j.partitions_kN_per_m ≤ 0 ∧ j.wall_thickness_mm > 0
  then j.wall_thickness_mm / 115 * (35/10)
  else j.partitions_kN_per_m

def twDead (j : TwoWayInputs) : ℚ :=
  total_dead_load (twSelfWt j) (j.floor_finish_kN_m2 * j.strip_width_m) (twPartitionsUsed j)

def twWu (j : TwoWayInputs) : ℚ :=
  factored_load (twDead j) (j.live_load_kN_m2 * j.strip_width_m)

def twRatio (j : TwoWayInputs) : ℚ := twLlong j / twLshort j

def twAlphaX (j : TwoWayInputs) : ℚ := (get_table27_alphas (twRatio j)).1

def twAlphaY (j : TwoWayInputs) : ℚ := (get_table27_alphas (twRatio j)).2

def twMxkNm (j : TwoWayInputs) : ℚ := twAlphaX j * twWu j * (twLshort j) ^ 2

def twMykNm (j : TwoWayInputs) : ℚ := twAlphaY j * twWu j * (twLlong j) ^ 2

def twAstShortRaw (j : TwoWayInputs) : ℚ :=
  solveAstLoop (moment_kNm_to_Nmm (twMxkNm j)) (twDshort j) 1000 j.fck j.fy 1000000 1

def twAstLongRaw (j : TwoWayInputs) : ℚ :=
  solveAstLoop (moment_kNm_to_Nmm (twMykNm j)) (twDlong j) 1000 j.fck j.fy 1000000 1

def twAstShortMin (j : TwoWayInputs) : ℚ := min_reinforcement_ratio * 1000 * twDshort j

def twAstLongMin (j : TwoWayInputs) : ℚ := min_reinforcement_ratio * 1000 * twDlong j

/-- Required short-direction steel after the minimum floor (steps 7-8 run
BEFORE the shear and serviceability stages in `two_way.py`). -/
def twAstShortFinal (j : TwoWayInputs) : ℚ :=
  if twAstShortRaw j < twAstShortMin j then twAstShortMin j else twAstShortRaw j

def twAstLongFinal (j : TwoWayInputs) : ℚ :=
  if twAstLongRaw j < twAstLongMin j then twAstLongMin j else twAstLongRaw j

/-- X/Y mapping of the per-direction requirements (swapped when `Lx > Ly`). -/
def twAstX (j : TwoWayInputs) : ℚ :=
  if j.Ly_m ≥ j.Lx_m then twAstShortFinal j else twAstLongFinal j

def twAstY (j : TwoWayInputs) : ℚ :=
  if j.Ly_m ≥ j.Lx_m then twAstLongFinal j else twAstShortFinal j

def twDx (j : TwoWayInputs) : ℚ := if j.Ly_m ≥ j.Lx_m then twDshort j else twDlong j

def twDy (j : TwoWayInputs) : ℚ := if j.Ly_m ≥ j.Lx_m then twDlong j else twDshort j

noncomputable def twRecX (j : TwoWayInputs) : RecommendResult :=
  recommend_bars (twAstX j) defaultPreferredBars false

noncomputable def twRecY (j : TwoWayInputs) : RecommendResult :=
  recommend_bars (twAstY j) defaultPreferredBars false

def twAstShareX (j : TwoWayInputs) : ℚ := twAstX j / (1000 * twDx j)

def twAstShareY (j : TwoWayInputs) : ℚ := twAstY j / (1000 * twDy j)

def twVuShortkN (j : TwoWayInputs) : ℚ := twWu j * twLshort j / 2

def twVuLongkN (j : TwoWayInputs) : ℚ := twWu j * twLlong j / 2

def twTauVshort (j : TwoWayInputs) : ℚ := twVuShortkN j * 1000 / (1000 * twDshort j)

def twTauVlong (j : TwoWayInputs) : ℚ := twVuLongkN j * 1000 / (1000 * twDlong j)

noncomputable def twTauCshort (j : TwoWayInputs) : ℝ :=
  computeTauCval j.fck (twAstShortFinal j) 1000 (twDshort j)

noncomputable def twTauClong (j : TwoWayInputs) : ℝ :=
  computeTauCval j.fck (twAstLongFinal j) 1000 (twDlong j)

def twPtX (j : TwoWayInputs) : ℚ := 100 * twAstX j / (1000 * twDx j)

def twPtY (j : TwoWayInputs) : ℚ := 100 * twAstY j / (1000 * twDy j)

/-- The result dictionary of `design_twoway_slab` (both source branches build
the same literal, over the already-mapped variables). -/
structure TwoWayResult where
  slab_type : String
  ly_lx_ratio_val : ℚ
  wu_kN_per_m : ℚ
  alpha_short : ℚ
  alpha_long : ℚ
  L_short_m : ℚ
  L_long_m : ℚ
  Mx_kN_m_per_m : ℚ
  My_kN_m_per_m : ℚ
  d_short_mm : ℚ
  d_long_mm : ℚ
  Ast_short_req_mm2_per_m : ℚ
  Ast_short_prov_mm2_per_m : ℝ
  spacing_short_mm : ℤ
  Ast_long_req_mm2_per_m : ℚ
  Ast_long_prov_mm2_per_m : ℝ
  spacing_long_mm : ℤ
  tau_v_short_N_per_mm2 : ℚ
  tau_c_short_N_per_mm2 : ℝ
  tau_v_long_N_per_mm2 : ℚ
  tau_c_long_N_per_mm2 : ℝ
  p_t_x_percent : ℚ
  p_t_y_percent : ℚ
  fck : ℚ
  fy : ℚ
  cover_mm : ℚ
  warnings : List Warning
  detailed_steps : List TwoWayStep

open Classical in
/-- The result record, warnings and step trace of `design_twoway_slab`,
in source order. -/
noncomputable def twoWayResult (j : TwoWayInputs) : TwoWayResult :=
  { slab_type := "Two-way (Table 27 method)"
    ly_lx_ratio_val := roundToQ (twRatio j) 4
    wu_kN_per_m := roundToQ (twWu j) 4
    alpha_short := roundToQ (twAlphaX j) 6
    alpha_long := roundToQ (twAlphaY j) 6
    L_short_m := roundToQ (twLshort j) 3
    L_long_m := roundToQ (twLlong j) 3
    Mx_kN_m_per_m := roundToQ (twMxkNm j) 4
    My_kN_m_per_m := roundToQ (twMykNm j) 4
    d_short_mm := roundToQ (twDshort j) 1
    d_long_mm := roundToQ (twDlong j) 1
    Ast_short_req_mm2_per_m := roundToQ (twAstShortFinal j) 2
    Ast_short_prov_mm2_per_m := roundToR (twRecX j).recommended.Ast_provided_mm2_per_m 2
    spacing_short_mm := (twRecX j).recommended.spacing_mm
    Ast_long_req_mm2_per_m := roundToQ (twAstLongFinal j) 2
    Ast_long_prov_mm2_per_m := roundToR (twRecY j).recommended.Ast_provided_mm2_per_m 2
    spacing_long_mm := (twRecY j).recommended.spacing_mm
    tau_v_short_N_per_mm2 := roundToQ (twTauVshort j) 4
    tau_c_short_N_per_mm2 := roundToR (twTauCshort j) 4
    tau_v_long_N_per_mm2 := roundToQ (twTauVlong j) 4
    tau_c_long_N_per_mm2 := roundToR (twTauClong j) 4
    p_t_x_percent := roundToQ (twPtX j) 6
    p_t_y_percent := roundToQ (twPtY j) 6
    fck := j.fck
    fy := j.fy
    cover_mm := j.cover_mm
    warnings :=
      (if twDovShort j > 500 then [Warning.depthLargeShort] else [])
      ++ (if twDovLong j > 500 then [Warning.depthLargeLong] else [])
      ++ (if twAstShareX j < 2/1000 then [Warning.crackingLowSteelX] else [])
      ++ (if twAstShareY j < 2/1000 then [Warning.crackingLowSteelY] else [])
      ++ (if (twTauVshort j : ℝ) > twTauCshort j then [Warning.shearExceedsShort] else [])
      ++ (if (twTauVlong j : ℝ) > twTauClong j then [Warning.shearExceedsLong] else [])
      ++ [Warning.deflectionNotCompleted]
    detailed_steps :=
      [TwoWayStep.inputsSummary,
       TwoWayStep.spanClassification,
       TwoWayStep.initialDepths (twDShortInit j) (twDLongInit j),
       TwoWayStep.effectiveSpanDepths (twDshort j) (twDlong j),
       TwoWayStep.factoredLoads (twPartitionsUsed j) (twDead j) (twWu j),
       TwoWayStep.momentsFromTable (twMxkNm j) (twMykNm j),
       TwoWayStep.astFromMoments (twAstShortRaw j) (twAstLongRaw j),
       TwoWayStep.maxDepthCheck,
       TwoWayStep.minReinforcementCheck
         (decide (twAstShortRaw j < twAstShortMin j))
         (decide (twAstLongRaw j < twAstLongMin j)),
       TwoWayStep.barSelection,
       TwoWayStep.crackingCheck,
       TwoWayStep.shearChecks,
       TwoWayStep.deflectionCheck] }

/-- `two_way.design_twoway_slab`: the raise sites in source order (the aspect
ratio `L_long/L_short` formatted in the span-classification step, the
`span*1000/L_div_d` division, the solver's division for each direction, the
shear formula's square root for each direction), then the packaged result.
No input validation of any kind precedes the stages. -/
noncomputable def design_twoway_slab (j : TwoWayInputs) : Except PyErr TwoWayResult := do
  let _ ← pydiv (twLlong j) (twLshort j)
  let _ ← pydiv (twLshort j * 1000) j.L_div_d
  let _ ← solve_ast_from_mu (moment_kNm_to_Nmm (twMxkNm j)) (twDshort j) 1000 j.fck j.fy
  let _ ← solve_ast_from_mu (moment_kNm_to_Nmm (twMykNm j)) (twDlong j) 1000 j.fck j.fy
  let _ ← compute_tau_c_IS j.fck (twAstShortFinal j) 1000 (twDshort j)
  let _ ← compute_tau_c_IS j.fck (twAstLongFinal j) 1000 (twDlong j)
  .ok (twoWayResult j)

/-! ## Concrete workflow inputs used by the claim instances -/

/-- The spec's stress-block capacity recomputation: `x = 0.87*fy*Ast/(0.36*fck*b)`,
capacity `0.87*fy*Ast*(d - 0.42*x)` (the in-range branch of the loop's
`mu_calc`). -/
def stressBlockCapacity (Ast d_mm b_mm fck fy : ℚ) : ℚ :=
  let x_mm := 87/100 * fy * Ast / (36/100 * fck * b_mm)
  87/100 * fy * Ast * (d_mm - 42/100 * x_mm)

/-- One-way strip: 1 m clear span, default loads, `fck=25`, `fy=500`. -/
def owInputsSpan1 : OneWayInputs :=
  { clear_span_m := 1, live_load_kN_m2 := 3, floor_finish_kN_m2 := 1/2,
    partitions_kN_per_m := 0, strip_width_m := 1, support_width_m := 0,
    L_div_d := 20, cover_mm := 20, bar_dia_mm := 10, fck := 25, fy := 500,
    exposure := .moderate }

/-- One-way strip with a negative clear span (invalid input). -/
def owInputsSpanNeg : OneWayInputs :=
  { clear_span_m := -1, live_load_kN_m2 := 3, floor_finish_kN_m2 := 1/2,
    partitions_kN_per_m := 0, strip_width_m := 1, support_width_m := 0,
    L_div_d := 20, cover_mm := 20, bar_dia_mm := 10, fck := 25, fy := 500,
    exposure := .moderate }

/-- One-way strip with a zero concrete grade (invalid input). -/
def owInputsFck0 : OneWayInputs :=
  { clear_span_m := 2, live_load_kN_m2 := 3, floor_finish_kN_m2 := 1/2,
    partitions_kN_per_m := 0, strip_width_m := 1, support_width_m := 0,
    L_div_d := 20, cover_mm := 20, bar_dia_mm := 10, fck := 0, fy := 500,
    exposure := .moderate }

/-- Square two-way panel, 1 m by 1 m, default loads and wall thickness. -/
def twInputsSquare1 : TwoWayInputs :=
  { Lx_m := 1, Ly_m := 1, wall_thickness_mm := 115, live_load_kN_m2 := 3,
    floor_finish_kN_m2 := 1/2, partitions_kN_per_m := 0, strip_width_m := 1,
    cover_mm := 20, bar_dia_x_mm := 10, bar_dia_y_mm := 10, fck := 25, fy := 500,
    L_div_d := 20 }

/-- Two-way panel with negative spans (invalid input). -/
def twInputsNeg : TwoWayInputs :=
  { Lx_m := -2, Ly_m := -2, wall_thickness_mm := 115, live_load_kN_m2 := 3,
    floor_finish_kN_m2 := 1/2, partitions_kN_per_m := 0, strip_width_m := 1,
    cover_mm := 20, bar_dia_x_mm := 10, bar_dia_y_mm := 10, fck := 25, fy := 500,
    L_div_d := 20 }

/-! ## Generic lemmas about the steel-area scan -/

/-- The scan never returns less than its (integer) starting value, as long as
that value is within the `1_000_000` cap. -/
lemma solveAstLoop_ge (Mu d b fck fy : ℚ) :
    ∀ (fuel : ℕ) (j : ℕ), (j : ℚ) ≤ 1000000 →
      (j : ℚ) ≤ solveAstLoop Mu d b fck fy fuel (j : ℚ) := by
  intro fuel
  induction fuel with
  | zero => intro j hj; rw [solveAstLoop]; exact hj
  | succ m ih =>
    intro j hj
    rw [solveAstLoop]
    split
    · split
      · exact le_refl _
      · rename_i hlt _
        have hj' : j < 1000000 := by exact_mod_cast hlt
        have hcast : ((j : ℚ) + 1) = ((j + 1 : ℕ) : ℚ) := by push_cast; ring
        rw [hcast]
        have h1 : ((j + 1 : ℕ) : ℚ) ≤ 1000000 := by
          have : j + 1 ≤ 1000000 := by omega
          exact_mod_cast this
        calc (j : ℚ) ≤ ((j + 1 : ℕ) : ℚ) := by push_cast; linarith
          _ ≤ _ := ih (j + 1) h1
    · exact hj

/-- The scan never returns more than the `1_000_000` cap (from an integer
starting value). -/
lemma solveAstLoop_le (Mu d b fck fy : ℚ) :
    ∀ (fuel : ℕ) (j : ℕ),
      solveAstLoop Mu d b fck fy fuel (j : ℚ) ≤ 1000000 := by
  intro fuel
  induction fuel with
  | zero => intro j; rw [solveAstLoop]
  | succ m ih =>
    intro j
    rw [solveAstLoop]
    split
    · split
      · rename_i hlt _
        exact le_of_lt hlt
      · have hcast : ((j : ℚ) + 1) = ((j + 1 : ℕ) : ℚ) := by push_cast; ring
        rw [hcast]
        exact ih (j + 1)
    · exact le_refl _

/-- First-crossing characterisation: if the stopping condition fails at every
integer from `j` up to `n` exclusive and holds at `n < 1_000_000`, the scan
started at `j` returns exactly `n`. -/
lemma solveAstLoop_firstCross (Mu d b fck fy : ℚ) :
    ∀ (fuel j n : ℕ), j ≤ n → (n : ℚ) < 1000000 → n - j < fuel →
      (∀ k : ℕ, j ≤ k → k < n → ¬stepCond Mu d b fck fy (k : ℚ)) →
      stepCond Mu d b fck fy (n : ℚ) →
      solveAstLoop Mu d b fck fy fuel (j : ℚ) = (n : ℚ) := by
  intro fuel
  induction fuel with
  | zero => intro j n hjn hn hfuel _ _; omega
  | succ m ih =>
    intro j n hjn hn hfuel hnot hyes
    have hjq : (j : ℚ) ≤ (n : ℚ) := by exact_mod_cast hjn
    rw [solveAstLoop, if_pos (lt_of_le_of_lt hjq hn)]
    by_cases hj : j = n
    · subst hj
      rw [if_pos (show muCalcAt d b fck fy (j : ℚ) ≥ Mu from hyes)]
    · have hjn' : j < n := lt_of_le_of_ne hjn hj
      rw [if_neg (show ¬muCalcAt d b fck fy (j : ℚ) ≥ Mu from hnot j (le_refl j) hjn')]
      have hcast : ((j : ℚ) + 1) = ((j + 1 : ℕ) : ℚ) := by push_cast; ring
      rw [hcast]
      exact ih (j + 1) n (by omega) hn (by omega)
        (fun k hk1 hk2 => hnot k (by omega) hk2) hyes

/-- Whatever the scan returns, when it is not the saturated `1_000_000` it is
an integer `n ≥ j` satisfying the stopping condition, with the condition
failing at every earlier integer from `j` on. -/
lemma solveAstLoop_char (Mu d b fck fy : ℚ) :
    ∀ (fuel j : ℕ),
      solveAstLoop Mu d b fck fy fuel (j : ℚ) ≠ 1000000 →
      ∃ n : ℕ, solveAstLoop Mu d b fck fy fuel (j : ℚ) = (n : ℚ) ∧ j ≤ n ∧
        stepCond Mu d b fck fy (n : ℚ) ∧
        (∀ k : ℕ, j ≤ k → k < n → ¬stepCond Mu d b fck fy (k : ℚ)) := by
  intro fuel
  induction fuel with
  | zero => intro j hne; rw [solveAstLoop] at hne; exact absurd rfl hne
  | succ m ih =>
    intro j hne
    rw [solveAstLoop] at hne ⊢
    split at hne
    · split at hne
      · rename_i hcond
        refine ⟨j, ?_, le_refl j, hcond, fun k hk1 hk2 => by omega⟩
        rw [if_pos (by assumption), if_pos hcond]
      · rename_i hlt hcond
        have hcast : ((j : ℚ) + 1) = ((j + 1 : ℕ) : ℚ) := by push_cast; ring
        rw [hcast] at hne ⊢
        obtain ⟨n, h1, h2, h3, h4⟩ := ih (j + 1) hne
        refine ⟨n, ?_, by omega, h3, ?_⟩
        · rw [if_pos hlt, if_neg hcond, h1]
        · intro k hk1 hk2
          rcases Nat.eq_or_lt_of_le hk1 with h | h
          · rw [← h]; exact hcond
          · exact h4 k (by omega) hk2
    · exact absurd rfl hne

/-- The scan is monotone in the demanded moment. -/
lemma solveAstLoop_mono (d b fck fy Mu1 Mu2 : ℚ) (h : Mu1 ≤ Mu2) :
    ∀ (fuel : ℕ) (j : ℕ),
      solveAstLoop Mu1 d b fck fy fuel (j : ℚ) ≤ solveAstLoop Mu2 d b fck fy fuel (j : ℚ) := by
  intro fuel
  induction fuel with
  | zero => intro j; rw [solveAstLoop, solveAstLoop]
  | succ m ih =>
    intro j
    rw [solveAstLoop, solveAstLoop]
    split
    · rename_i hlt
      by_cases h2 : muCalcAt d b fck fy (j : ℚ) ≥ Mu2
      · rw [if_pos h2, if_pos (le_trans h h2)]
      · rw [if_neg h2]
        have hcast : ((j : ℚ) + 1) = ((j + 1 : ℕ) : ℚ) := by push_cast; ring
        by_cases h1 : muCalcAt d b fck fy (j : ℚ) ≥ Mu1
        · rw [if_pos h1, hcast]
          have hj1 : ((j + 1 : ℕ) : ℚ) ≤ 1000000 := by
            have : j < 1000000 := by exact_mod_cast hlt
            have : j + 1 ≤ 1000000 := by omega
            exact_mod_cast this
          calc (j : ℚ) ≤ ((j + 1 : ℕ) : ℚ) := by push_cast; linarith
            _ ≤ _ := solveAstLoop_ge Mu2 d b fck fy m (j + 1) hj1
        · rw [if_neg h1, hcast]
          exact ih (j + 1)
    · exact le_refl _

/-- Closed form of the stopping condition for a 1000 mm strip with
`fck = 25`, `fy = 500` (the grades used by every claim instance): the
neutral axis is `29*ast/600` and the capacity `87*ast*(10000*d-203*ast)/2000`. -/
lemma stepCond_shape (Mu d a : ℚ) :
    stepCond Mu d 1000 25 500 a ↔
      (29 * a / 600 ≥ d ∧ (10 ^ 18 : ℚ) ≥ Mu) ∨
      (29 * a / 600 < d ∧ 87 * a * (10000 * d - 203 * a) / 2000 ≥ Mu) := by
  unfold stepCond muCalcAt
  have hx : (87/100 * 500 * a) / (36/100 * 25 * 1000) = 29 * a / 600 := by ring
  simp only [hx]
  split_ifs with h
  · constructor
    · intro hm; exact Or.inl ⟨h, hm⟩
    · rintro (⟨_, hm⟩ | ⟨hlt, _⟩)
      · exact hm
      · exact absurd hlt (not_lt.mpr h)
  · have heq : 87/100 * 500 * a * (d - 42/100 * (29 * a / 600)) =
        87 * a * (10000 * d - 203 * a) / 2000 := by ring
    rw [heq]
    constructor
    · intro hm; exact Or.inr ⟨not_le.mp h, hm⟩
    · rintro (⟨hge, _⟩ | ⟨_, hm⟩)
      · exact absurd hge h
      · exact hm

/-- The capacity branch is monotone in `ast` while below the quadratic's
vertex. -/
lemma capShape_mono (d a1 a2 : ℚ) (h0 : 0 ≤ a1) (h12 : a1 ≤ a2)
    (hsum : 203 * (a1 + a2) ≤ 10000 * d) :
    87 * a1 * (10000 * d - 203 * a1) / 2000 ≤ 87 * a2 * (10000 * d - 203 * a2) / 2000 := by
  nlinarith [mul_nonneg (sub_nonneg.mpr h12) (sub_nonneg.mpr hsum)]

/-- Concrete evaluation scheme for the scan at `fck = 25`, `fy = 500`,
`b = 1000`: if the sentinel has not fired by `n-1`, the capacity at `n-1`
is still below `Mu`, and the stopping condition holds at `n`, then the scan
returns exactly `n`. -/
lemma solveAst_value (Mu d : ℚ) (n : ℕ) (h1 : 1 ≤ n) (hn : (n : ℚ) < 1000000)
    (hd0 : 0 ≤ d)
    (hx : 29 * ((n : ℚ) - 1) / 600 < d)
    (hcap : 87 * ((n : ℚ) - 1) * (10000 * d - 203 * ((n : ℚ) - 1)) / 2000 < Mu)
    (hstep : stepCond Mu d 1000 25 500 (n : ℚ)) :
    solveAstLoop Mu d 1000 25 500 1000000 1 = (n : ℚ) := by
  have hnn : n < 1000000 := by exact_mod_cast hn
  have hmain := solveAstLoop_firstCross Mu d 1000 25 500 1000000 1 n h1 hn (by omega)
    (fun k hk1 hk2 => by
      rw [stepCond_shape]
      have hkq : (k : ℚ) ≤ (n : ℚ) - 1 := by
        have hkn : (k : ℚ) + 1 ≤ (n : ℚ) := by exact_mod_cast Nat.succ_le_of_lt hk2
        linarith
      have hk0 : (0 : ℚ) ≤ (k : ℚ) := Nat.cast_nonneg k
      rintro (⟨hge, _⟩ | ⟨_, hcapk⟩)
      · have : 29 * (k : ℚ) / 600 ≤ 29 * ((n : ℚ) - 1) / 600 := by linarith
        linarith
      · have hmono : 87 * (k : ℚ) * (10000 * d - 203 * (k : ℚ)) / 2000 ≤
            87 * ((n : ℚ) - 1) * (10000 * d - 203 * ((n : ℚ) - 1)) / 2000 := by
          apply capShape_mono d (k : ℚ) ((n : ℚ) - 1) hk0 hkq
          have h600 : 29 * ((n : ℚ) - 1) < 600 * d := by linarith
          nlinarith
        linarith)
    hstep
  rw [Nat.cast_one] at hmain
  exact hmain

/-- Instance: `Mu = 2e7 N·mm`, `d = 20`, `b = 1000`, `fck = 25`, `fy = 500`
(the claim's insufficient-depth scenario): the scan returns 414, the first
step at which the neutral axis reaches `d` and the `1e18` sentinel fires. -/
lemma solveAst_at_d20 : solveAstLoop 20000000 20 1000 25 500 1000000 1 = 414 := by
  have h := solveAst_value 20000000 20 414 (by norm_num) (by norm_num) (by norm_num)
    (by norm_num) (by norm_num)
    (by rw [stepCond_shape]; exact Or.inl ⟨by norm_num, by norm_num⟩)
  exact_mod_cast h

/-- Instance: `Mu = 2e7`, `d = 150`: the scan returns 321. -/
lemma solveAst_at_d150 : solveAstLoop 20000000 150 1000 25 500 1000000 1 = 321 := by
  have h := solveAst_value 20000000 150 321 (by norm_num) (by norm_num) (by norm_num)
    (by norm_num) (by norm_num)
    (by rw [stepCond_shape]; exact Or.inr ⟨by norm_num, by norm_num⟩)
  exact_mod_cast h

/-- Instance: `Mu = 1e5`, `d = 150`: the scan returns 2. -/
lemma solveAst_at_mu1e5 : solveAstLoop 100000 150 1000 25 500 1000000 1 = 2 := by
  have h := solveAst_value 100000 150 2 (by norm_num) (by norm_num) (by norm_num)
    (by norm_num) (by norm_num)
    (by rw [stepCond_shape]; exact Or.inr ⟨by norm_num, by norm_num⟩)
  exact_mod_cast h

/-- Instance: `Mu = 2e5`, `d = 150`: the scan returns 4. -/
lemma solveAst_at_mu2e5 : solveAstLoop 200000 150 1000 25 500 1000000 1 = 4 := by
  have h := solveAst_value 200000 150 4 (by norm_num) (by norm_num) (by norm_num)
    (by norm_num) (by norm_num)
    (by rw [stepCond_shape]; exact Or.inr ⟨by norm_num, by norm_num⟩)
  exact_mod_cast h

/-- Instance: `Mu = 1242187.5`, `d = 100` (the 1 m one-way strip used in the
workflow witnesses): the scan returns 29. -/
lemma solveAst_at_span1 : solveAstLoop (2484375/2) 100 1000 25 500 1000000 1 = 29 := by
  have h := solveAst_value (2484375/2) 100 29 (by norm_num) (by norm_num) (by norm_num)
    (by norm_num) (by norm_num)
    (by rw [stepCond_shape]; exact Or.inr ⟨by norm_num, by norm_num⟩)
  exact_mod_cast h

/-- Instance: `Mu = 941625`, `d = 100` (the square two-way panel used in the
workflow witnesses): the scan returns 22. -/
lemma solveAst_at_sq1 : solveAstLoop 941625 100 1000 25 500 1000000 1 = 22 := by
  have h := solveAst_value 941625 100 22 (by norm_num) (by norm_num) (by norm_num)
    (by norm_num) (by norm_num)
    (by rw [stepCond_shape]; exact Or.inr ⟨by norm_num, by norm_num⟩)
  exact_mod_cast h

/-! ## Reduction of the workflow spines -/

lemma exceptBind_ok {ε α β : Type} (a : α) (f : α → Except ε β) :
    (Except.ok a : Except ε α) >>= f = f a := rfl

lemma exceptBind_err {ε α β : Type} (e : ε) (f : α → Except ε β) :
    (Except.error e : Except ε α) >>= f = .error e := rfl

/-- `compute_tau_c_IS` succeeds whenever the concrete grade is nonnegative. -/
lemma compute_tau_c_ok (fck ast b d : ℚ) (hf : 0 ≤ fck) :
    ∃ t : ℝ, compute_tau_c_IS fck ast b d = .ok t := by
  rw [compute_tau_c_IS]
  split_ifs with h1 h2
  · exact ⟨0, rfl⟩
  · exact absurd h2 (not_lt.mpr (by linarith))
  · exact ⟨computeTauCval fck ast b d, rfl⟩

/-- With a nonzero span/depth divisor and a positive grade,
`design_oneway_slab` completes every stage and returns the packaged result. -/
lemma design_oneway_ok (i : OneWayInputs) (hLd : i.L_div_d ≠ 0) (hfck : 0 < i.fck) :
    design_oneway_slab i = .ok (oneWayResult i) := by
  have h1 : pydiv (i.clear_span_m * 1000) i.L_div_d = .ok (i.clear_span_m * 1000 / i.L_div_d) := by
    rw [pydiv, if_neg hLd]
  have h2 : pydiv (owLeff i * 1000) i.L_div_d = .ok (owLeff i * 1000 / i.L_div_d) := by
    rw [pydiv, if_neg hLd]
  have hden : (36/100 : ℚ) * i.fck * 1000 ≠ 0 := by positivity
  have h3 : solve_ast_from_mu (owMuNmm i) (owD i) 1000 i.fck i.fy = .ok (owAstRaw i) := by
    rw [solve_ast_from_mu, if_neg hden]; rfl
  obtain ⟨t, h4⟩ := compute_tau_c_ok i.fck (owAstRaw i) 1000 (owD i) (le_of_lt hfck)
  rw [design_oneway_slab]
  rw [h1, exceptBind_ok, h2, exceptBind_ok, h3, exceptBind_ok, h4, exceptBind_ok]

/-- With `fck = 0`, `design_oneway_slab` dies inside the solver with a raw
ZeroDivisionError (not any validation error). -/
lemma design_oneway_fck_zero (i : OneWayInputs) (hLd : i.L_div_d ≠ 0) (hfck : i.fck = 0) :
    design_oneway_slab i = .error .zeroDivisionError := by
  have h1 : pydiv (i.clear_span_m * 1000) i.L_div_d = .ok (i.clear_span_m * 1000 / i.L_div_d) := by
    rw [pydiv, if_neg hLd]
  have h2 : pydiv (owLeff i * 1000) i.L_div_d = .ok (owLeff i * 1000 / i.L_div_d) := by
    rw [pydiv, if_neg hLd]
  have h3 : solve_ast_from_mu (owMuNmm i) (owD i) 1000 i.fck i.fy = .error .zeroDivisionError := by
    rw [solve_ast_from_mu, if_pos (by rw [hfck]; ring)]
  rw [design_oneway_slab]
  rw [h1, exceptBind_ok, h2, exceptBind_ok, h3, exceptBind_err]

/-- With nonzero short span, nonzero span/depth divisor and positive grade,
`design_twoway_slab` completes every stage and returns the packaged result. -/
lemma design_twoway_ok (j : TwoWayInputs) (hS : twLshort j ≠ 0) (hLd : j.L_div_d ≠ 0)
    (hfck : 0 < j.fck) :
    design_twoway_slab j = .ok (twoWayResult j) := by
  have h1 : pydiv (twLlong j) (twLshort j) = .ok (twLlong j / twLshort j) := by
    rw [pydiv, if_neg hS]
  have h2 : pydiv (twLshort j * 1000) j.L_div_d = .ok (twLshort j * 1000 / j.L_div_d) := by
    rw [pydiv, if_neg hLd]
  have hden : (36/100 : ℚ) * j.fck * 1000 ≠ 0 := by positivity
  have h3 : solve_ast_from_mu (moment_kNm_to_Nmm (twMxkNm j)) (twDshort j) 1000 j.fck j.fy =
      .ok (twAstShortRaw j) := by
    rw [solve_ast_from_mu, if_neg hden]; rfl
  have h4 : solve_ast_from_mu (moment_kNm_to_Nmm (twMykNm j)) (twDlong j) 1000 j.fck j.fy =
      .ok (twAstLongRaw j) := by
    rw [solve_ast_from_mu, if_neg hden]; rfl
  obtain ⟨t1, h5⟩ := compute_tau_c_ok j.fck (twAstShortFinal j) 1000 (twDshort j) (le_of_lt hfck)
  obtain ⟨t2, h6⟩ := compute_tau_c_ok j.fck (twAstLongFinal j) 1000 (twDlong j) (le_of_lt hfck)
  rw [design_twoway_slab]
  rw [h1, exceptBind_ok, h2, exceptBind_ok, h3, exceptBind_ok, h4, exceptBind_ok,
    h5, exceptBind_ok, h6, exceptBind_ok]

/-! ## Rounding lemmas -/

lemma rheQ_ge_floor (q : ℚ) : ⌊q⌋ ≤ rheQ q := by
  unfold rheQ; split_ifs <;> omega

lemma rheQ_le_floor_add_one (q : ℚ) : rheQ q ≤ ⌊q⌋ + 1 := by
  unfold rheQ; split_ifs <;> omega

/-- Rounding to one decimal preserves the 100 mm floor. -/
lemma roundToQ_one_ge_100 (q : ℚ) (h : 100 ≤ q) : 100 ≤ roundToQ q 1 := by
  unfold roundToQ
  have hf : (1000 : ℤ) ≤ ⌊q * 10 ^ 1⌋ := by
    apply Int.le_floor.mpr
    push_cast
    linarith
  have h2 : (1000 : ℤ) ≤ rheQ (q * 10 ^ 1) := le_trans hf (rheQ_ge_floor _)
  have h3 : (1000 : ℚ) ≤ (rheQ (q * 10 ^ 1) : ℚ) := by exact_mod_cast h2
  rw [le_div_iff₀ (by norm_num : (0 : ℚ) < 10 ^ 1)]
  linarith

/-! ## Strictly increasing breakpoint lists -/

/-- The last element of a strictly increasing nonempty chain hanging off `a`
lies strictly above `a`. -/
lemma chain_lt_last (a : ℚ) : ∀ (l : List ℚ), List.Chain (· < ·) a l → l ≠ [] →
    a < l.getLast?.getD 0 := by
  intro l
  induction l generalizing a with
  | nil => intro _ h; exact absurd rfl h
  | cons b t ih =>
    intro hc _
    cases hc with
    | cons hab ht =>
      cases t with
      | nil => simpa using hab
      | cons c u =>
        rw [List.getLast?_cons_cons]
        exact lt_trans hab (ih b ht (by simp))

/-! ## The 8 mm candidate at `Ast_req = 100.1` -/

lemma area8_eq : area_of_bar_mm2 8 = 16 * Real.pi := by
  unfold area_of_bar_mm2; norm_num; ring

lemma raw8_eq : (1000 : ℝ) / (((1001/10 : ℚ) : ℝ) / (16 * Real.pi)) = 160000 * Real.pi / 1001 := by
  have hpi0 : (0 : ℝ) < Real.pi := Real.pi_pos
  push_cast
  field_simp
  ring

lemma rheR_raw8 : rheR (160000 * Real.pi / 1001 / 5) = 100 := by
  have hpi1 : (3.141592 : ℝ) < Real.pi := Real.pi_gt_d6
  have hpi2 : Real.pi < 3.141593 := Real.pi_lt_d6
  have hfl : ⌊(160000 * Real.pi / 1001 / 5 : ℝ)⌋ = (100 : ℤ) := by
    rw [Int.floor_eq_iff]
    constructor
    · push_cast; nlinarith
    · push_cast; nlinarith
  unfold rheR
  rw [hfl]
  rw [if_pos (by push_cast; nlinarith)]

lemma spacing8_eq : round_spacing_practical (160000 * Real.pi / 1001) = 500 := by
  unfold round_spacing_practical
  rw [rheR_raw8]
  norm_num

lemma cand8_eval : candFor (1001/10) 8 =
    { bar_dia_mm := 8
      raw_spacing_mm := 160000 * Real.pi / 1001
      spacing_mm := 500
      Ast_provided_mm2_per_m := 32 * Real.pi
      ok := true
      warnings := [.spacingAboveMax] } := by
  have hpi1 : (3.141592 : ℝ) < Real.pi := Real.pi_gt_d6
  have hbpos : (0 : ℝ) < ((1001/10 : ℚ) : ℝ) / (16 * Real.pi) := by
    have hpi0 : (0 : ℝ) < Real.pi := Real.pi_pos
    push_cast
    positivity
  simp only [candFor, area8_eq]
  rw [if_neg (by norm_num : ¬((1001/10 : ℚ) ≤ 0)), if_neg (not_le.mpr hbpos), raw8_eq,
    spacing8_eq]
  have hprov : (16 * Real.pi * (1000 / ((500 : ℤ) : ℝ)) : ℝ) = 32 * Real.pi := by
    push_cast; ring
  rw [if_neg (by norm_num : ¬((500 : ℤ) = 0)), hprov]
  have hcov : ¬(32 * Real.pi + 1/1000000 < ((1001/10 : ℚ) : ℝ)) := by
    push_cast; nlinarith
  rw [if_neg (by decide : ¬((500 : ℤ) < MIN_SPACING_MM)),
    if_pos (by decide : (500 : ℤ) > MAX_SPACING_MM), if_neg hcov,
    if_neg (by push_neg; exact ⟨by decide, not_lt.mp hcov⟩)]
  rfl

lemma cand8_mem :
    candFor (1001/10) 8 ∈ (recommend_bars (1001/10) defaultPreferredBars false).candidates := by
  have hmax : max (1001/10 : ℚ) 0 = 1001/10 := by norm_num
  simp [recommend_bars, hmax, defaultPreferredBars]

/-! ## Evaluation helpers for concrete inputs -/

lemma rheQ_intCast (z : ℤ) : rheQ (z : ℚ) = z := by
  unfold rheQ
  rw [Int.floor_intCast]
  rw [if_pos (by norm_num)]

/-- `round(q, n)` is the identity when `q` has at most `n` decimals. -/
lemma roundToQ_of_int (q : ℚ) (n : ℕ) (z : ℤ) (h : q * 10 ^ n = (z : ℚ)) :
    roundToQ q n = q := by
  unfold roundToQ
  rw [h, rheQ_intCast]
  field_simp at h ⊢
  linarith [h]

lemma owD_span1 : owD owInputsSpan1 = 100 := by
  norm_num [owD, owLeff, owDInitial, owInputsSpan1]

lemma owMuNmm_span1 : owMuNmm owInputsSpan1 = 2484375/2 := by
  norm_num [owMuNmm, owMukNm, owWu, owDead, owSelfWt, owDov, owD, owLeff, owDInitial,
    owCoverRec, owInputsSpan1, slab_self_weight, total_dead_load, factored_load,
    moment_kNm_to_Nmm, UNIT_WEIGHT_CONCRETE, GAMMA_F]

lemma owAstRaw_span1 : owAstRaw owInputsSpan1 = 29 := by
  rw [owAstRaw, owMuNmm_span1, owD_span1]
  have h1 : owInputsSpan1.fck = 25 := rfl
  have h2 : owInputsSpan1.fy = 500 := rfl
  rw [h1, h2, solveAst_at_span1]

lemma owAstMin_span1 : owAstMin owInputsSpan1 = 120 := by
  rw [owAstMin, owD_span1]
  norm_num [min_reinforcement_ratio]

lemma owD_spanNeg : owD owInputsSpanNeg = 100 := by
  norm_num [owD, owLeff, owDInitial, owInputsSpanNeg]

lemma twDshort_sq1 : twDshort twInputsSquare1 = 100 := by
  norm_num [twDshort, twLeffShort, twDShortInit, twLshort, twInputsSquare1]

lemma twDlong_sq1 : twDlong twInputsSquare1 = 100 := by
  norm_num [twDlong, twLeffLong, twDLongInit, twLlong, twInputsSquare1]

lemma twPartitionsUsed_sq1 : twPartitionsUsed twInputsSquare1 = 7/2 := by
  norm_num [twPartitionsUsed, twInputsSquare1]

lemma twWu_sq1 : twWu twInputsSquare1 = 243/16 := by
  rw [twWu, twDead, twSelfWt, twAssumedDov, twDovShort, twDovLong, twDshort_sq1,
    twDlong_sq1, twPartitionsUsed_sq1]
  norm_num [twInputsSquare1, slab_self_weight, total_dead_load, factored_load,
    UNIT_WEIGHT_CONCRETE, GAMMA_F]

lemma twRatio_sq1 : twRatio twInputsSquare1 = 1 := by
  norm_num [twRatio, twLlong, twLshort, twInputsSquare1]

lemma alphas_at_one : get_table27_alphas 1 = (62/1000, 62/1000) := by
  norm_num [get_table27_alphas, TABLE27_LY_LX, TABLE27_ALPHA_X, TABLE27_ALPHA_Y, interp1d]

lemma twMxkNm_sq1 : twMxkNm twInputsSquare1 = 7533/8000 := by
  rw [twMxkNm, twAlphaX, twRatio_sq1, alphas_at_one]
  rw [twWu_sq1]
  norm_num [twLshort, twInputsSquare1]

lemma twMykNm_sq1 : twMykNm twInputsSquare1 = 7533/8000 := by
  rw [twMykNm, twAlphaY, twRatio_sq1, alphas_at_one]
  rw [twWu_sq1]
  norm_num [twLlong, twInputsSquare1]

lemma twAstShortRaw_sq1 : twAstShortRaw twInputsSquare1 = 22 := by
  rw [twAstShortRaw, twMxkNm_sq1, twDshort_sq1]
  have h1 : twInputsSquare1.fck = 25 := rfl
  have h2 : twInputsSquare1.fy = 500 := rfl
  rw [h1, h2]
  have hmu : moment_kNm_to_Nmm (7533/8000) = 941625 := by
    norm_num [moment_kNm_to_Nmm]
  rw [hmu, solveAst_at_sq1]

lemma twAstShortMin_sq1 : twAstShortMin twInputsSquare1 = 120 := by
  rw [twAstShortMin, twDshort_sq1]
  norm_num [min_reinforcement_ratio]

/-- The only success value `design_oneway_slab` can ever return is the
packaged `oneWayResult`. -/
lemma design_oneway_ok_inv (i : OneWayInputs) (r : OneWayResult)
    (h : design_oneway_slab i = .ok r) : r = oneWayResult i := by
  rw [design_oneway_slab, pydiv, pydiv, solve_ast_from_mu, compute_tau_c_IS] at h
  split_ifs at h <;>
    simp only [exceptBind_ok, exceptBind_err] at h <;>
    first
      | exact (Except.ok.inj h).symm
      | exact absurd h (by simp)

/-- The only success value `design_twoway_slab` can ever return is the
packaged `twoWayResult`. -/
lemma design_twoway_ok_inv (j : TwoWayInputs) (r : TwoWayResult)
    (h : design_twoway_slab j = .ok r) : r = twoWayResult j := by
  rw [design_twoway_slab, pydiv, pydiv, solve_ast_from_mu, solve_ast_from_mu,
    compute_tau_c_IS, compute_tau_c_IS] at h
  split_ifs at h <;>
    simp only [exceptBind_ok, exceptBind_err] at h <;>
    first
      | exact (Except.ok.inj h).symm
      | exact absurd h (by simp)

/-! ## Claim theorems -/

/-- C1 counterexample: at `Mu = 20 kN·m` (in N·mm), `b = 1000`, `fck = 25`,
`fy = 500`, `d = 20 mm` the discriminant `1 - 4.6*Mu/(fck*b*d^2)` is negative,
yet `solve_ast_from_mu` does not raise `InsufficientDepthError` (no such error
exists anywhere in the code): it returns the numeric value 414, the first scan
step at which the neutral axis reaches `d` and the `1e18` sentinel defeats the
capacity comparison. -/
theorem C1_cex_solver_returns_number :
    (1 : ℚ) - 46/10 * 20000000 / (25 * 1000 * 20 ^ 2) < 0 ∧
    solve_ast_from_mu 20000000 20 1000 25 500 = .ok 414 := by
  constructor
  · norm_num
  · rw [solve_ast_from_mu, if_neg (by norm_num), solveAst_at_d20]

/-- C1 (amended): for `Mu > 0`, `d > 0`, `b > 0` (and positive grades) with a
negative discriminant, the solver raises nothing: the call succeeds and
returns a numeric value between 1 and the saturation cap `1_000_000` mm²/m.
The claimed `InsufficientDepthError` is never signalled. -/
theorem C1_solver_no_insufficient_depth_error (Mu d b fck fy : ℚ)
    (hMu : 0 < Mu) (hd : 0 < d) (hb : 0 < b) (hfck : 0 < fck) (hfy : 0 < fy)
    (hdisc : (1 : ℚ) - 46/10 * Mu / (fck * b * d ^ 2) < 0) :
    (solve_ast_from_mu Mu d b fck fy).isOk = true ∧
    ∀ q : ℚ, solve_ast_from_mu Mu d b fck fy = .ok q → 1 ≤ q ∧ q ≤ 1000000 := by
  have hden : (36/100 : ℚ) * fck * b ≠ 0 := by positivity
  constructor
  · rw [solve_ast_from_mu, if_neg hden]; rfl
  · intro q hq
    rw [solve_ast_from_mu, if_neg hden] at hq
    have hq' : solveAstLoop Mu d b fck fy 1000000 1 = q := Except.ok.inj hq
    constructor
    · rw [← hq']
      have h := solveAstLoop_ge Mu d b fck fy 1000000 1 (by norm_num)
      simpa using h
    · rw [← hq']
      have h := solveAstLoop_le Mu d b fck fy 1000000 1
      simpa using h

/-- C1 witness: the amended theorem instantiated at the claim's own concrete
scenario. -/
theorem C1_witness :
    ((1 : ℚ) - 46/10 * 20000000 / (25 * 1000 * 20 ^ 2) < 0) ∧
    ((solve_ast_from_mu 20000000 20 1000 25 500).isOk = true ∧
     ∀ q : ℚ, solve_ast_from_mu 20000000 20 1000 25 500 = .ok q → 1 ≤ q ∧ q ≤ 1000000) :=
  ⟨by norm_num,
   C1_solver_no_insufficient_depth_error 20000000 20 1000 25 500 (by norm_num) (by norm_num)
     (by norm_num) (by norm_num) (by norm_num) (by norm_num)⟩

/-- C6 counterexample: at the spec's own concrete scenario `Mu = 20 kN·m`,
`d = 150`, `b = 1000`, `fck = 25`, `fy = 500` the solver returns 321 mm²/m,
and the stress-block capacity recomputed from that area misses `Mu` by about
0.18 % — outside the claimed 0.1 % relative tolerance. -/
theorem C6_cex_roundtrip_tolerance_fails :
    solve_ast_from_mu 20000000 150 1000 25 500 = .ok 321 ∧
    ¬(|stressBlockCapacity 321 150 1000 25 500 - 20000000| ≤ 1/1000 * 20000000) := by
  constructor
  · rw [solve_ast_from_mu, if_neg (by norm_num), solveAst_at_d150]
  · have hval : stressBlockCapacity 321 150 1000 25 500 = 40070692899/2000 := by
      norm_num [stressBlockCapacity]
    rw [hval]
    rw [abs_of_nonneg (by norm_num)]
    norm_num

/-- C6 (amended): for positive inputs in the singly-reinforced range, the
returned area either saturates at `1_000_000` or is the FIRST 1 mm² step whose
loop capacity `mu_calc` meets `Mu` — so the recomputed capacity reproduces
`Mu` only from above and only to within one full scan step, not within 0.1 %. -/
theorem C6_solver_first_crossing (Mu d b fck fy : ℚ)
    (hMu : 0 < Mu) (hd : 0 < d) (hb : 0 < b) (hfck : 0 < fck) (hfy : 0 < fy)
    (hdisc : 0 ≤ (1 : ℚ) - 46/10 * Mu / (fck * b * d ^ 2)) :
    ∀ r : ℚ, solve_ast_from_mu Mu d b fck fy = .ok r →
      r = 1000000 ∨
      (muCalcAt d b fck fy r ≥ Mu ∧
       ∀ k : ℕ, 1 ≤ k → (k : ℚ) < r → muCalcAt d b fck fy (k : ℚ) < Mu) := by
  intro r hr
  have hden : (36/100 : ℚ) * fck * b ≠ 0 := by positivity
  rw [solve_ast_from_mu, if_neg hden] at hr
  have hr' : solveAstLoop Mu d b fck fy 1000000 1 = r := Except.ok.inj hr
  by_cases hsat : r = 1000000
  · exact Or.inl hsat
  · right
    have hne : solveAstLoop Mu d b fck fy 1000000 ((1 : ℕ) : ℚ) ≠ 1000000 := by
      rw [Nat.cast_one, hr']; exact hsat
    obtain ⟨n, h1, _, h3, h4⟩ := solveAstLoop_char Mu d b fck fy 1000000 1 hne
    rw [Nat.cast_one, hr'] at h1
    constructor
    · rw [h1]; exact h3
    · intro k hk1 hk2
      rw [h1] at hk2
      have hkn : k < n := by exact_mod_cast hk2
      exact not_le.mp (h4 k hk1 hkn)

/-- C6 witness: the amended first-crossing property at `Mu = 1e5`, `d = 150`,
where the solver returns 2. -/
theorem C6_witness :
    solve_ast_from_mu 100000 150 1000 25 500 = .ok 2 ∧
    ((2 : ℚ) = 1000000 ∨
     (muCalcAt 150 1000 25 500 2 ≥ 100000 ∧
      ∀ k : ℕ, 1 ≤ k → (k : ℚ) < 2 → muCalcAt 150 1000 25 500 (k : ℚ) < 100000)) := by
  have hsolve : solve_ast_from_mu 100000 150 1000 25 500 = .ok 2 := by
    rw [solve_ast_from_mu, if_neg (by norm_num), solveAst_at_mu1e5]
  exact ⟨hsolve,
    C6_solver_first_crossing 100000 150 1000 25 500 (by norm_num) (by norm_num) (by norm_num)
      (by norm_num) (by norm_num) (by norm_num) 2 hsolve⟩

/-- C7 (confirmed): for fixed positive `d`, `b`, `fck`, `fy` and demanded
moments `Mu1 ≤ Mu2` both below the discriminant limit, the solver's returned
areas are ordered `Ast1 ≤ Ast2`. -/
theorem C7_solver_monotone (d b fck fy Mu1 Mu2 : ℚ)
    (hd : 0 < d) (hb : 0 < b) (hfck : 0 < fck) (hfy : 0 < fy)
    (h12 : Mu1 ≤ Mu2)
    (hdisc : 46/10 * Mu2 / (fck * b * d ^ 2) ≤ 1) :
    ∀ r1 r2 : ℚ, solve_ast_from_mu Mu1 d b fck fy = .ok r1 →
      solve_ast_from_mu Mu2 d b fck fy = .ok r2 → r1 ≤ r2 := by
  intro r1 r2 h1 h2
  have hden : (36/100 : ℚ) * fck * b ≠ 0 := by positivity
  rw [solve_ast_from_mu, if_neg hden] at h1 h2
  rw [← Except.ok.inj h1, ← Except.ok.inj h2]
  have h := solveAstLoop_mono d b fck fy Mu1 Mu2 h12 1000000 1
  simpa using h

/-- C7 witness: `Mu1 = 1e5 ≤ Mu2 = 2e5` at `d = 150` give areas `2 ≤ 4`. -/
theorem C7_witness :
    solve_ast_from_mu 100000 150 1000 25 500 = .ok 2 ∧
    solve_ast_from_mu 200000 150 1000 25 500 = .ok 4 ∧
    (2 : ℚ) ≤ 4 := by
  have h1 : solve_ast_from_mu 100000 150 1000 25 500 = .ok 2 := by
    rw [solve_ast_from_mu, if_neg (by norm_num), solveAst_at_mu1e5]
  have h2 : solve_ast_from_mu 200000 150 1000 25 500 = .ok 4 := by
    rw [solve_ast_from_mu, if_neg (by norm_num), solveAst_at_mu2e5]
  exact ⟨h1, h2,
    C7_solver_monotone 150 1000 25 500 100000 200000 (by norm_num) (by norm_num) (by norm_num)
      (by norm_num) (by norm_num) (by norm_num) 2 4 h1 h2⟩

/-- C8 (confirmed): for a table with parallel breakpoint/value lists,
strictly increasing breakpoints and at least two points, `interp1d` clamps:
queries at or below the first breakpoint return exactly the first value (and
agree with the lookup at the first breakpoint), and queries at or above the
last breakpoint return exactly the last value — out-of-range queries are
silently saturated, never rejected and never extrapolated. -/
theorem C8_interp_clamps (xs ys : List ℚ) (q : ℚ)
    (hlen : xs.length = ys.length) (h2 : 2 ≤ xs.length)
    (hchain : List.Chain' (· < ·) xs) :
    (q ≤ xs.headI →
      interp1d xs ys q = ys.headI ∧ interp1d xs ys q = interp1d xs ys xs.headI) ∧
    (xs.getLast?.getD 0 ≤ q → interp1d xs ys q = ys.getLast?.getD 0) := by
  constructor
  · intro hq
    constructor
    · rw [interp1d, if_pos hq]
    · rw [interp1d, if_pos hq, interp1d, if_pos (le_refl _)]
  · intro hq
    obtain ⟨a, xs', rfl⟩ : ∃ a xs', xs = a :: xs' := by
      cases xs with
      | nil => simp at h2
      | cons a t => exact ⟨a, t, rfl⟩
    have hne : xs' ≠ [] := by
      cases xs' with
      | nil => simp at h2
      | cons b t => simp
    have hchain2 : List.Chain (· < ·) a xs' := hchain
    have hlast : (a :: xs').getLast?.getD 0 = xs'.getLast?.getD 0 := by
      cases xs' with
      | nil => exact absurd rfl hne
      | cons b t => rw [List.getLast?_cons_cons]
    have hhl : a < (a :: xs').getLast?.getD 0 := by
      rw [hlast]
      exact chain_lt_last a xs' hchain2 hne
    rw [interp1d, if_neg, if_pos hq]
    simp only [List.headI]
    exact not_le.mpr (lt_of_lt_of_le hhl hq)

/-- C8 witness: the two-point table `x = [1, 2]`, `y = [10, 20]`: the query 0
clamps to 10 (agreeing with the lookup at the breakpoint 1), and the query 5
clamps to 20. -/
theorem C8_witness :
    (interp1d [1, 2] [10, 20] 0 = 10 ∧
     interp1d [1, 2] [10, 20] 0 = interp1d [1, 2] [10, 20] ([1, 2] : List ℚ).headI) ∧
    interp1d [1, 2] [10, 20] 5 = 20 := by
  have hchain : List.Chain' (· < ·) ([1, 2] : List ℚ) := by
    refine List.Chain.cons ?_ List.Chain.nil
    norm_num
  have h := C8_interp_clamps [1, 2] [10, 20] 0 (by simp) (by simp) hchain
  have h5 := C8_interp_clamps [1, 2] [10, 20] 5 (by simp) (by simp) hchain
  refine ⟨?_, ?_⟩
  · have hb := h.1 (by norm_num [List.headI])
    exact hb
  · have ht := h5.2 (by norm_num [List.getLast?])
    simpa using ht

lemma candFor_spacing_eq (a d : ℚ) :
    (candFor a d).spacing_mm = round_spacing_practical ((candFor a d).raw_spacing_mm) := rfl

lemma rheR_close (x : ℝ) : |(rheR x : ℝ) - x| ≤ 1/2 := by
  unfold rheR
  have hfl : (⌊x⌋ : ℝ) ≤ x := Int.floor_le x
  have hfu : x < ⌊x⌋ + 1 := Int.lt_floor_add_one x
  split_ifs with h1 h2 h3
  · rw [abs_sub_comm, abs_of_nonneg (by linarith)]
    linarith
  · push_cast
    rw [abs_of_nonneg (by linarith)]
    linarith
  · have hq : x - ⌊x⌋ = 1/2 := le_antisymm (not_lt.mp h2) (not_lt.mp h1)
    rw [abs_sub_comm, abs_of_nonneg (by linarith)]
    linarith
  · have hq : x - ⌊x⌋ = 1/2 := le_antisymm (not_lt.mp h2) (not_lt.mp h1)
    push_cast
    rw [abs_of_nonneg (by linarith)]
    linarith

lemma one_le_rheR (x : ℝ) (hx : 1/2 < x) : 1 ≤ rheR x := by
  unfold rheR
  have hfl : (⌊x⌋ : ℝ) ≤ x := Int.floor_le x
  have hfu : x < ⌊x⌋ + 1 := Int.lt_floor_add_one x
  have h0 : (0 : ℤ) ≤ ⌊x⌋ := by
    by_contra h
    push_neg at h
    have h' : ⌊x⌋ + 1 ≤ 0 := by omega
    have hc : (⌊x⌋ : ℝ) + 1 ≤ 0 := by exact_mod_cast h'
    linarith
  split_ifs with h1 h2 h3
  · have hp : (0 : ℤ) < ⌊x⌋ := by
      by_contra h
      push_neg at h
      have hc : (⌊x⌋ : ℝ) ≤ 0 := by exact_mod_cast h
      linarith
    omega
  · omega
  · have hq : x - ⌊x⌋ = 1/2 := le_antisymm (not_lt.mp h2) (not_lt.mp h1)
    have hp : (0 : ℤ) < ⌊x⌋ := by
      by_contra h
      push_neg at h
      have hc : (⌊x⌋ : ℝ) ≤ 0 := by exact_mod_cast h
      linarith
    omega
  · omega

/-- C4 counterexample: at `Ast_req = 100.1 mm²/m`, the 8 mm candidate of
`recommend_bars` is marked `ok = true` although its stored spacing is 500 mm,
far above the 300 mm maximum spacing — the claimed upper spacing bound is not
part of the feasibility flag. -/
theorem C4_cex_ok_candidate_beyond_max_spacing :
    candFor (1001/10) 8 ∈ (recommend_bars (1001/10) defaultPreferredBars false).candidates ∧
    (candFor (1001/10) 8).ok = true ∧
    MAX_SPACING_MM < (candFor (1001/10) 8).spacing_mm := by
  refine ⟨cand8_mem, ?_, ?_⟩
  · rw [cand8_eval]
  · rw [cand8_eval]
    decide

/-- C4 (amended): every candidate of `recommend_bars` (default catalogue)
marked `ok = true` provides at least the required area up to the `1e-6`
tolerance and its spacing is at least the practical minimum 50 mm (which
dominates `max(1.5*dia, 20)` for every catalogue diameter) — but no upper
spacing bound is enforced by the flag. -/
lemma candFor_ok_eq (a d : ℚ) :
    (candFor a d).ok =
      (if (candFor a d).spacing_mm < MIN_SPACING_MM ∨
          (candFor a d).Ast_provided_mm2_per_m + 1/1000000 < (a : ℝ)
       then false else true) := rfl

theorem C4_ok_candidates_feasible (ast_req : ℚ) (c : Candidate)
    (h0 : 0 ≤ ast_req)
    (hc : c ∈ (recommend_bars ast_req defaultPreferredBars false).candidates)
    (hok : c.ok = true) :
    ((ast_req : ℝ) - 1/1000000 ≤ c.Ast_provided_mm2_per_m ∧
     (50 : ℤ) ≤ c.spacing_mm ∧
     max (3/2 * c.bar_dia_mm) 20 ≤ (c.spacing_mm : ℚ)) := by
  have hmax : max ast_req 0 = ast_req := max_eq_left h0
  simp only [recommend_bars, hmax, List.mem_map] at hc
  obtain ⟨dia, hdia, rfl⟩ := hc
  rw [candFor_ok_eq] at hok
  split_ifs at hok with hcond
  push_neg at hcond
  obtain ⟨hsp, hprov⟩ := hcond
  have hsp50 : (50 : ℤ) ≤ (candFor ast_req dia).spacing_mm := hsp
  refine ⟨by linarith [hprov], hsp50, ?_⟩
  have hd50 : max (3/2 * dia) 20 ≤ 50 := by
    simp only [defaultPreferredBars, List.mem_cons, List.not_mem_nil, or_false] at hdia
    rcases hdia with rfl | rfl | rfl | rfl | rfl | rfl <;> norm_num
  have hcast : (50 : ℚ) ≤ (((candFor ast_req dia).spacing_mm : ℤ) : ℚ) := by
    exact_mod_cast hsp50
  have hdia' : (candFor ast_req dia).bar_dia_mm = dia := rfl
  rw [hdia']
  exact le_trans hd50 hcast

/-- C4 witness: the feasibility facts instantiated at `Ast_req = 100.1` and
the 8 mm candidate (which is `ok = true`). -/
theorem C4_witness :
    candFor (1001/10) 8 ∈ (recommend_bars (1001/10) defaultPreferredBars false).candidates ∧
    (candFor (1001/10) 8).ok = true ∧
    (((1001/10 : ℚ) : ℝ) - 1/1000000 ≤ (candFor (1001/10) 8).Ast_provided_mm2_per_m ∧
     (50 : ℤ) ≤ (candFor (1001/10) 8).spacing_mm ∧
     max (3/2 * (candFor (1001/10) 8).bar_dia_mm) 20 ≤ ((candFor (1001/10) 8).spacing_mm : ℚ)) := by
  have hok : (candFor (1001/10) 8).ok = true := by rw [cand8_eval]
  exact ⟨cand8_mem, hok,
    C4_ok_candidates_feasible (1001/10) (candFor (1001/10) 8) (by norm_num) cand8_mem hok⟩

/-- C5 counterexample: at `Ast_req = 100.1 mm²/m` the 8 mm candidate's raw
spacing is `160000*pi/1001 ≈ 502.15 mm`, but the stored spacing is 500 mm —
rounded DOWN (to the nearest 5 mm), not up — and it exceeds the configured
300 mm maximum: no clamp is applied. -/
theorem C5_cex_spacing_rounds_down_unclamped :
    candFor (1001/10) 8 ∈ (recommend_bars (1001/10) defaultPreferredBars false).candidates ∧
    (((candFor (1001/10) 8).spacing_mm : ℤ) : ℝ) < (candFor (1001/10) 8).raw_spacing_mm ∧
    MAX_SPACING_MM < (candFor (1001/10) 8).spacing_mm := by
  refine ⟨cand8_mem, ?_, ?_⟩
  · rw [cand8_eval]
    have hpi : (3.141592 : ℝ) < Real.pi := Real.pi_gt_d6
    push_cast
    nlinarith
  · rw [cand8_eval]
    decide

/-- C5 (amended): for a positive required area, each candidate's stored
spacing is the raw spacing rounded to the NEAREST 5 mm increment (a multiple
of 5 within 2.5 mm of the raw value, in either direction), with no clamp to
the maximum spacing applied. -/
theorem C5_spacing_nearest_five (ast_req dia : ℚ)
    (h0 : 0 < ast_req) (hraw : 5/2 < (candFor ast_req dia).raw_spacing_mm) :
    (∃ k : ℤ, (candFor ast_req dia).spacing_mm = 5 * k) ∧
    |(((candFor ast_req dia).spacing_mm : ℤ) : ℝ) - (candFor ast_req dia).raw_spacing_mm|
      ≤ 5/2 := by
  rw [candFor_spacing_eq]
  have h1 : 1 ≤ rheR ((candFor ast_req dia).raw_spacing_mm / 5) := by
    apply one_le_rheR
    linarith
  unfold round_spacing_practical
  have hmax : max 1 (rheR ((candFor ast_req dia).raw_spacing_mm / 5) * 5) =
      rheR ((candFor ast_req dia).raw_spacing_mm / 5) * 5 := by
    apply max_eq_right
    linarith
  rw [hmax]
  constructor
  · exact ⟨rheR ((candFor ast_req dia).raw_spacing_mm / 5), mul_comm _ 5⟩
  · have hclose := rheR_close ((candFor ast_req dia).raw_spacing_mm / 5)
    rw [abs_le] at hclose ⊢
    push_cast
    constructor <;> [linarith [hclose.1]; linarith [hclose.2]]

/-- C5 witness: the nearest-5 rounding property instantiated at
`Ast_req = 100.1`, 8 mm bars. -/
theorem C5_witness :
    (5/2 < (candFor (1001/10) 8).raw_spacing_mm) ∧
    ((∃ k : ℤ, (candFor (1001/10) 8).spacing_mm = 5 * k) ∧
     |(((candFor (1001/10) 8).spacing_mm : ℤ) : ℝ) - (candFor (1001/10) 8).raw_spacing_mm|
       ≤ 5/2) := by
  have hraw : (5/2 : ℝ) < (candFor (1001/10) 8).raw_spacing_mm := by
    rw [cand8_eval]
    have hpi : (3.141592 : ℝ) < Real.pi := Real.pi_gt_d6
    nlinarith
  exact ⟨hraw, C5_spacing_nearest_five (1001/10) 8 (by norm_num) hraw⟩

/-- C2 counterexample: a design call with a negative clear span raises
nothing and produces a complete DesignResult (here with `d_mm = 100`), so no
`InvalidInputError` is raised before the stages execute. -/
theorem C2_cex_negative_span_returns_result :
    owInputsSpanNeg.clear_span_m < 0 ∧
    (design_oneway_slab owInputsSpanNeg).toOption.map OneWayResult.d_mm = some 100 := by
  constructor
  · norm_num [owInputsSpanNeg]
  · rw [design_oneway_ok owInputsSpanNeg (by norm_num [owInputsSpanNeg])
      (by norm_num [owInputsSpanNeg])]
    simp only [Except.toOption, Option.map_some']
    have hproj : (oneWayResult owInputsSpanNeg).d_mm = roundToQ (owD owInputsSpanNeg) 1 := rfl
    rw [hproj, owD_spanNeg, roundToQ_of_int 100 1 1000 (by norm_num)]

/-- C2 (amended): the engine performs no input validation and defines no
`InvalidInputError`: with a non-positive span (and positive grade) every
stage executes and a full DesignResult is returned, for one-way and two-way
alike; a non-positive grade surfaces as a raw ZeroDivisionError from inside
the solver, not as a validation error. -/
theorem C2_no_input_validation (i : OneWayInputs) (j : TwoWayInputs) (i2 : OneWayInputs)
    (hspan : i.clear_span_m ≤ 0) (hLd : i.L_div_d ≠ 0) (hfck : 0 < i.fck)
    (hLx : j.Lx_m < 0) (hLy : j.Ly_m < 0) (hLd2 : j.L_div_d ≠ 0) (hfck2 : 0 < j.fck)
    (hLd3 : i2.L_div_d ≠ 0) (hfck0 : i2.fck = 0) :
    (design_oneway_slab i).isOk = true ∧
    (design_twoway_slab j).isOk = true ∧
    design_oneway_slab i2 = .error .zeroDivisionError := by
  refine ⟨?_, ?_, ?_⟩
  · rw [design_oneway_ok i hLd hfck]; rfl
  · have hS : twLshort j ≠ 0 := by
      have hneg : twLshort j < 0 := by
        unfold twLshort
        split_ifs <;> assumption
      exact ne_of_lt hneg
    rw [design_twoway_ok j hS hLd2 hfck2]; rfl
  · exact design_oneway_fck_zero i2 hLd3 hfck0

/-- C2 witness: the no-validation behaviour at concrete invalid inputs
(span −1 m one-way, −2 m by −2 m two-way, and a zero grade). -/
theorem C2_witness :
    owInputsSpanNeg.clear_span_m ≤ 0 ∧ owInputsFck0.fck = 0 ∧
    ((design_oneway_slab owInputsSpanNeg).isOk = true ∧
     (design_twoway_slab twInputsNeg).isOk = true ∧
     design_oneway_slab owInputsFck0 = .error .zeroDivisionError) :=
  ⟨by norm_num [owInputsSpanNeg], rfl,
   C2_no_input_validation owInputsSpanNeg twInputsNeg owInputsFck0
     (by norm_num [owInputsSpanNeg]) (by norm_num [owInputsSpanNeg])
     (by norm_num [owInputsSpanNeg]) (by norm_num [twInputsNeg]) (by norm_num [twInputsNeg])
     (by norm_num [twInputsNeg]) (by norm_num [twInputsNeg]) (by norm_num [owInputsFck0]) rfl⟩

/-- C10 (confirmed): every effective depth computed by either workflow — the
initial depth from span over L/d and the final depth recomputed from the
effective span, in each direction — is floored at 100 mm, and the returned
`d_mm` / `d_short_mm` / `d_long_mm` fields are therefore at least 100 for
every input on which a result is returned at all. -/
theorem C10_depth_floored_at_100 (i : OneWayInputs) (j : TwoWayInputs) (q1 q2 q3 : ℚ) :
    (100 ≤ owDInitial i ∧ 100 ≤ owD i ∧ 100 ≤ twDShortInit j ∧ 100 ≤ twDLongInit j ∧
     100 ≤ twDshort j ∧ 100 ≤ twDlong j) ∧
    ((design_oneway_slab i).toOption.map OneWayResult.d_mm = some q1 → 100 ≤ q1) ∧
    ((design_twoway_slab j).toOption.map TwoWayResult.d_short_mm = some q2 → 100 ≤ q2) ∧
    ((design_twoway_slab j).toOption.map TwoWayResult.d_long_mm = some q3 → 100 ≤ q3) := by
  refine ⟨⟨le_max_right _ _, le_max_right _ _, le_max_right _ _, le_max_right _ _,
    le_max_right _ _, le_max_right _ _⟩, ?_, ?_, ?_⟩
  · intro h
    rcases hd : design_oneway_slab i with e | r
    · rw [hd] at h; simp [Except.toOption] at h
    · rw [hd] at h
      simp only [Except.toOption, Option.map_some', Option.some.injEq] at h
      rw [design_oneway_ok_inv i r hd] at h
      rw [← h]
      have hproj : (oneWayResult i).d_mm = roundToQ (owD i) 1 := rfl
      rw [hproj]
      exact roundToQ_one_ge_100 _ (le_max_right _ _)
  · intro h
    rcases hd : design_twoway_slab j with e | r
    · rw [hd] at h; simp [Except.toOption] at h
    · rw [hd] at h
      simp only [Except.toOption, Option.map_some', Option.some.injEq] at h
      rw [design_twoway_ok_inv j r hd] at h
      rw [← h]
      have hproj : (twoWayResult j).d_short_mm = roundToQ (twDshort j) 1 := rfl
      rw [hproj]
      exact roundToQ_one_ge_100 _ (le_max_right _ _)
  · intro h
    rcases hd : design_twoway_slab j with e | r
    · rw [hd] at h; simp [Except.toOption] at h
    · rw [hd] at h
      simp only [Except.toOption, Option.map_some', Option.some.injEq] at h
      rw [design_twoway_ok_inv j r hd] at h
      rw [← h]
      have hproj : (twoWayResult j).d_long_mm = roundToQ (twDlong j) 1 := rfl
      rw [hproj]
      exact roundToQ_one_ge_100 _ (le_max_right _ _)

/-- C10 witness: the 1 m one-way strip and the 1 m square panel both return
depth fields of exactly 100 mm, which the floor theorem bounds from below. -/
theorem C10_witness :
    ((design_oneway_slab owInputsSpan1).toOption.map OneWayResult.d_mm = some 100) ∧
    ((design_twoway_slab twInputsSquare1).toOption.map TwoWayResult.d_short_mm = some 100) ∧
    ((design_twoway_slab twInputsSquare1).toOption.map TwoWayResult.d_long_mm = some 100) ∧
    ((100 : ℚ) ≤ 100 ∧ (100 : ℚ) ≤ 100 ∧ (100 : ℚ) ≤ 100) := by
  have h1 : (design_oneway_slab owInputsSpan1).toOption.map OneWayResult.d_mm = some 100 := by
    rw [design_oneway_ok owInputsSpan1 (by norm_num [owInputsSpan1]) (by norm_num [owInputsSpan1])]
    simp only [Except.toOption, Option.map_some']
    have hproj : (oneWayResult owInputsSpan1).d_mm = roundToQ (owD owInputsSpan1) 1 := rfl
    rw [hproj, owD_span1, roundToQ_of_int 100 1 1000 (by norm_num)]
  have hS : twLshort twInputsSquare1 ≠ 0 := by norm_num [twLshort, twInputsSquare1]
  have h2 : (design_twoway_slab twInputsSquare1).toOption.map TwoWayResult.d_short_mm
      = some 100 := by
    rw [design_twoway_ok twInputsSquare1 hS (by norm_num [twInputsSquare1])
      (by norm_num [twInputsSquare1])]
    simp only [Except.toOption, Option.map_some']
    have hproj : (twoWayResult twInputsSquare1).d_short_mm
        = roundToQ (twDshort twInputsSquare1) 1 := rfl
    rw [hproj, twDshort_sq1, roundToQ_of_int 100 1 1000 (by norm_num)]
  have h3 : (design_twoway_slab twInputsSquare1).toOption.map TwoWayResult.d_long_mm
      = some 100 := by
    rw [design_twoway_ok twInputsSquare1 hS (by norm_num [twInputsSquare1])
      (by norm_num [twInputsSquare1])]
    simp only [Except.toOption, Option.map_some']
    have hproj : (twoWayResult twInputsSquare1).d_long_mm
        = roundToQ (twDlong twInputsSquare1) 1 := rfl
    rw [hproj, twDlong_sq1, roundToQ_of_int 100 1 1000 (by norm_num)]
  exact ⟨h1, h2, h3,
    (C10_depth_floored_at_100 owInputsSpan1 twInputsSquare1 100 100 100).2.1 h1,
    (C10_depth_floored_at_100 owInputsSpan1 twInputsSquare1 100 100 100).2.2.1 h2,
    (C10_depth_floored_at_100 owInputsSpan1 twInputsSquare1 100 100 100).2.2.2 h3⟩

/-- No append site in `design_oneway_slab` ever emits a minimum-steel
warning: whatever the shear, cracking, deflection and bar-selection branches
do, `minimumSteelGoverning` is absent from the warnings list. -/
lemma min_warning_not_emitted_oneway (i : OneWayInputs) :
    Warning.minimumSteelGoverning ∉ (oneWayResult i).warnings := by
  intro hmem
  simp only [oneWayResult] at hmem
  split_ifs at hmem <;> simp_all

/-- No append site in `design_twoway_slab` ever emits a minimum-steel
warning either. -/
lemma min_warning_not_emitted_twoway (j : TwoWayInputs) :
    Warning.minimumSteelGoverning ∉ (twoWayResult j).warnings := by
  intro hmem
  simp only [twoWayResult] at hmem
  split_ifs at hmem <;> simp_all

/-- When the raw solve falls below the minimum steel, the one-way trace
records the minimum-reinforcement-applied step. -/
lemma min_step_in_oneway_steps (i : OneWayInputs) (h : owAstRaw i < owAstMin i) :
    OneWayStep.minReinforcementApplied (owAstMin i) ∈ (oneWayResult i).detailed_steps := by
  simp only [oneWayResult]
  rw [if_pos h]
  simp

/-- C3 counterexample: on the 1 m strip the raw solve (29 mm²/m) is far below
the minimum steel (120 mm²/m), the minimum governs — and yet no
minimum-steel-governing warning appears in the returned warnings list (the
governing fact is recorded only in the `detailed_steps` trace). -/
theorem C3_cex_no_min_warning :
    owAstRaw owInputsSpan1 < owAstMin owInputsSpan1 ∧
    (design_oneway_slab owInputsSpan1).toOption.map
      (fun r => decide (Warning.minimumSteelGoverning ∈ r.warnings)) = some false := by
  constructor
  · rw [owAstRaw_span1, owAstMin_span1]; norm_num
  · rw [design_oneway_ok owInputsSpan1 (by norm_num [owInputsSpan1]) (by norm_num [owInputsSpan1])]
    simp only [Except.toOption, Option.map_some', Option.some.injEq]
    rw [decide_eq_false_iff_not]
    exact min_warning_not_emitted_oneway owInputsSpan1

/-- C3 (amended): whenever the raw structural solve produces less than the
code minimum `Ast_min = 0.0012*b*d`, the final required steel is exactly
`Ast_min` (and the stored result field is its 2-decimal rounding), in both
workflows; the minimum-governing fact is recorded in the one-way step trace
(and in the two-way min flags), but NO warning is appended to the result's
warnings list — the claimed warning does not exist in the code. -/
theorem C3_min_steel_floor (i : OneWayInputs) (j : TwoWayInputs)
    (hLd : i.L_div_d ≠ 0) (hfck : 0 < i.fck) (hlt : owAstRaw i < owAstMin i)
    (hS : twLshort j ≠ 0) (hLd2 : j.L_div_d ≠ 0) (hfck2 : 0 < j.fck)
    (hlt2 : twAstShortRaw j < twAstShortMin j) :
    (owAstFinal i = owAstMin i ∧
     (design_oneway_slab i).toOption.map OneWayResult.Ast_required_mm2_per_m
       = some (roundToQ (owAstMin i) 2) ∧
     (design_oneway_slab i).toOption.map
       (fun r => decide (OneWayStep.minReinforcementApplied (owAstMin i) ∈ r.detailed_steps))
       = some true ∧
     (design_oneway_slab i).toOption.map
       (fun r => decide (Warning.minimumSteelGoverning ∈ r.warnings)) = some false) ∧
    (twAstShortFinal j = twAstShortMin j ∧
     (design_twoway_slab j).toOption.map TwoWayResult.Ast_short_req_mm2_per_m
       = some (roundToQ (twAstShortMin j) 2) ∧
     (design_twoway_slab j).toOption.map
       (fun r => decide (Warning.minimumSteelGoverning ∈ r.warnings)) = some false) := by
  have hfin : owAstFinal i = owAstMin i := by rw [owAstFinal, if_pos hlt]
  have hfin2 : twAstShortFinal j = twAstShortMin j := by rw [twAstShortFinal, if_pos hlt2]
  rw [design_oneway_ok i hLd hfck, design_twoway_ok j hS hLd2 hfck2]
  simp only [Except.toOption, Option.map_some', Option.some.injEq]
  refine ⟨⟨hfin, ?_, ?_, ?_⟩, hfin2, ?_, ?_⟩
  · have hproj : (oneWayResult i).Ast_required_mm2_per_m = roundToQ (owAstFinal i) 2 := rfl
    rw [hproj, hfin]
  · rw [decide_eq_true_eq]
    exact min_step_in_oneway_steps i hlt
  · rw [decide_eq_false_iff_not]
    exact min_warning_not_emitted_oneway i
  · have hproj : (twoWayResult j).Ast_short_req_mm2_per_m
        = roundToQ (twAstShortFinal j) 2 := rfl
    rw [hproj, hfin2]
  · rw [decide_eq_false_iff_not]
    exact min_warning_not_emitted_twoway j

/-- C3 witness: the floor behaviour at the 1 m strip (29 < 120) and the 1 m
square panel (22 < 120). -/
theorem C3_witness :
    owAstRaw owInputsSpan1 < owAstMin owInputsSpan1 ∧
    twAstShortRaw twInputsSquare1 < twAstShortMin twInputsSquare1 ∧
    ((owAstFinal owInputsSpan1 = owAstMin owInputsSpan1 ∧
      (design_oneway_slab owInputsSpan1).toOption.map OneWayResult.Ast_required_mm2_per_m
        = some (roundToQ (owAstMin owInputsSpan1) 2) ∧
      (design_oneway_slab owInputsSpan1).toOption.map
        (fun r => decide (OneWayStep.minReinforcementApplied (owAstMin owInputsSpan1)
          ∈ r.detailed_steps)) = some true ∧
      (design_oneway_slab owInputsSpan1).toOption.map
        (fun r => decide (Warning.minimumSteelGoverning ∈ r.warnings)) = some false) ∧
     (twAstShortFinal twInputsSquare1 = twAstShortMin twInputsSquare1 ∧
      (design_twoway_slab twInputsSquare1).toOption.map TwoWayResult.Ast_short_req_mm2_per_m
        = some (roundToQ (twAstShortMin twInputsSquare1) 2) ∧
      (design_twoway_slab twInputsSquare1).toOption.map
        (fun r => decide (Warning.minimumSteelGoverning ∈ r.warnings)) = some false)) := by
  have h1 : owAstRaw owInputsSpan1 < owAstMin owInputsSpan1 := by
    rw [owAstRaw_span1, owAstMin_span1]; norm_num
  have h2 : twAstShortRaw twInputsSquare1 < twAstShortMin twInputsSquare1 := by
    rw [twAstShortRaw_sq1, twAstShortMin_sq1]; norm_num
  exact ⟨h1, h2,
    C3_min_steel_floor owInputsSpan1 twInputsSquare1 (by norm_num [owInputsSpan1])
      (by norm_num [owInputsSpan1]) h1 (by norm_num [twLshort, twInputsSquare1])
      (by norm_num [twInputsSquare1]) (by norm_num [twInputsSquare1]) h2⟩

/-- C9 (confirmed): when the caller passes a non-positive partition line load
and a positive wall thickness, the two-way workflow replaces the caller's
value with the internal estimate `(wall_thickness/115) * 3.5 kN/m` in the
dead-load sum (hence in `wu`) and reports that estimate in the factored-loads
step; the one-way workflow has no wall-thickness parameter and sums the
caller's partition value into the dead load unchanged. -/
theorem C9_partition_substitution (j : TwoWayInputs) (i : OneWayInputs)
    (hp : j.partitions_kN_per_m ≤ 0) (hw : 0 < j.wall_thickness_mm)
    (hS : twLshort j ≠ 0) (hLd2 : j.L_div_d ≠ 0) (hfck2 : 0 < j.fck)
    (hLd : i.L_div_d ≠ 0) (hfck : 0 < i.fck) (hpi : i.partitions_kN_per_m ≤ 0) :
    (twPartitionsUsed j = j.wall_thickness_mm / 115 * (35/10) ∧
     (design_twoway_slab j).toOption.map TwoWayResult.wu_kN_per_m
       = some (roundToQ (factored_load (total_dead_load (twSelfWt j)
           (j.floor_finish_kN_m2 * j.strip_width_m)
           (j.wall_thickness_mm / 115 * (35/10))) (j.live_load_kN_m2 * j.strip_width_m)) 4) ∧
     (design_twoway_slab j).toOption.map
       (fun r => decide (TwoWayStep.factoredLoads (j.wall_thickness_mm / 115 * (35/10))
           (twDead j) (twWu j) ∈ r.detailed_steps)) = some true) ∧
    ((design_oneway_slab i).toOption.map OneWayResult.dead_load_kN_per_m
       = some (roundToQ (total_dead_load (owSelfWt i) (i.floor_finish_kN_m2 * i.strip_width_m)
           i.partitions_kN_per_m) 3) ∧
     (design_oneway_slab i).toOption.map
       (fun r => decide (OneWayStep.loads i.partitions_kN_per_m (owDead i) (owWu i)
           ∈ r.detailed_steps)) = some true) := by
  have hsub : twPartitionsUsed j = j.wall_thickness_mm / 115 * (35/10) := by
    rw [twPartitionsUsed, if_pos ⟨hp, hw⟩]
  rw [design_twoway_ok j hS hLd2 hfck2, design_oneway_ok i hLd hfck]
  simp only [Except.toOption, Option.map_some', Option.some.injEq]
  refine ⟨⟨hsub, ?_, ?_⟩, ?_, ?_⟩
  · have hproj : (twoWayResult j).wu_kN_per_m = roundToQ (twWu j) 4 := rfl
    rw [hproj, twWu, twDead, hsub]
  · rw [decide_eq_true_eq, ← hsub]
    simp only [twoWayResult]
    simp
  · have hproj : (oneWayResult i).dead_load_kN_per_m = roundToQ (owDead i) 3 := rfl
    rw [hproj, owDead]
  · rw [decide_eq_true_eq]
    simp only [oneWayResult]
    simp

/-- C9 witness: on the 1 m square panel with `partitions = 0` and a 115 mm
wall, the substituted estimate is exactly 3.5 kN/m, the resulting `wu` field
is 15.1875 kN/m, and the one-way strip keeps its zero partition load. -/
theorem C9_witness :
    twInputsSquare1.partitions_kN_per_m ≤ 0 ∧ 0 < twInputsSquare1.wall_thickness_mm ∧
    ((twPartitionsUsed twInputsSquare1
        = twInputsSquare1.wall_thickness_mm / 115 * (35/10) ∧
      (design_twoway_slab twInputsSquare1).toOption.map TwoWayResult.wu_kN_per_m
        = some (roundToQ (factored_load (total_dead_load (twSelfWt twInputsSquare1)
            (twInputsSquare1.floor_finish_kN_m2 * twInputsSquare1.strip_width_m)
            (twInputsSquare1.wall_thickness_mm / 115 * (35/10)))
            (twInputsSquare1.live_load_kN_m2 * twInputsSquare1.strip_width_m)) 4) ∧
      (design_twoway_slab twInputsSquare1).toOption.map
        (fun r => decide (TwoWayStep.factoredLoads
            (twInputsSquare1.wall_thickness_mm / 115 * (35/10))
            (twDead twInputsSquare1) (twWu twInputsSquare1) ∈ r.detailed_steps))
        = some true) ∧
     ((design_oneway_slab owInputsSpan1).toOption.map OneWayResult.dead_load_kN_per_m
        = some (roundToQ (total_dead_load (owSelfWt owInputsSpan1)
            (owInputsSpan1.floor_finish_kN_m2 * owInputsSpan1.strip_width_m)
            owInputsSpan1.partitions_kN_per_m) 3) ∧
      (design_oneway_slab owInputsSpan1).toOption.map
        (fun r => decide (OneWayStep.loads owInputsSpan1.partitions_kN_per_m
            (owDead owInputsSpan1) (owWu owInputsSpan1) ∈ r.detailed_steps)) = some true)) :=
  ⟨by norm_num [twInputsSquare1], by norm_num [twInputsSquare1],
   C9_partition_substitution twInputsSquare1 owInputsSpan1
     (by norm_num [twInputsSquare1]) (by norm_num [twInputsSquare1])
     (by norm_num [twLshort, twInputsSquare1]) (by norm_num [twInputsSquare1])
     (by norm_num [twInputsSquare1]) (by norm_num [owInputsSpan1])
     (by norm_num [owInputsSpan1]) (by norm_num [owInputsSpan1])⟩
